import Mathlib

/-!
Verification of the descriptor-matching and search-orchestration engine of the
image-matching service (`main.py`), as a shallow embedding in Lean.

Scores are modelled as rationals, binary ORB descriptors as boolean vectors,
Python dicts as association lists that preserve insertion order, and the
non-deterministic completion order of the thread pool in the parallel strategy
as an explicit permutation of batch indices.  The external Annoy index is
modelled as an oracle producing (id, distance) lists, exactly as the code
consumes it through `get_nns_by_vector`.
-/

namespace ImageMatching

/-- Python's `min(a, b)`: returns the first argument on ties. -/
def qmin (a b : ℚ) : ℚ := if a ≤ b then a else b

/-- Python's `max(a, b)`: returns the first argument on ties. -/
def qmax (a b : ℚ) : ℚ := if a ≥ b then a else b

theorem qmin_le_left (a b : ℚ) : qmin a b ≤ a := by
  unfold qmin; split <;> [exact le_refl a; linarith [not_le.mp (by assumption)]]

theorem qmin_le_right (a b : ℚ) : qmin a b ≤ b := by
  unfold qmin; split <;> [assumption; exact le_refl b]

theorem le_qmin {a b c : ℚ} (h1 : c ≤ a) (h2 : c ≤ b) : c ≤ qmin a b := by
  unfold qmin; split <;> assumption

theorem qmax_le {a b c : ℚ} (h1 : a ≤ c) (h2 : b ≤ c) : qmax a b ≤ c := by
  unfold qmax; split <;> assumption

theorem le_qmax_left (a b : ℚ) : a ≤ qmax a b := by
  unfold qmax; split <;> [exact le_refl a; linarith [not_le.mp (by assumption)]]

theorem qmin_nonneg {a b : ℚ} (h1 : 0 ≤ a) (h2 : 0 ≤ b) : 0 ≤ qmin a b :=
  le_qmin h1 h2

theorem qmax_nonneg_left {a b : ℚ} (h1 : 0 ≤ a) : 0 ≤ qmax a b :=
  le_trans h1 (le_qmax_left a b)

/-- A binary ORB descriptor: a fixed-length bit vector (32 bytes = 256 bits in
the code; the length is irrelevant to the matching algebra). -/
abbrev Desc := List Bool

/-- Hamming distance between two descriptors (`cv2.NORM_HAMMING`). -/
def hamming (a b : Desc) : Nat := (List.zip a b).countP (fun p => p.1 != p.2)

/-- One match produced by the brute-force matcher: query index, train index and
Hamming distance (`cv2.DMatch`). -/
structure DMatch where
  queryIdx : Nat
  trainIdx : Nat
  distance : Nat
deriving DecidableEq, Repr

/-- Nearest neighbour of `q` in an indexed list of descriptors, together with
its distance.  Ties are broken towards the earliest index, as in OpenCV's
brute-force matcher. -/
def bestNeighbor (q : Desc) : List (Nat × Desc) → Option (Nat × Nat)
  | [] => none
  | (j, d) :: rest =>
    match bestNeighbor q rest with
    | none => some (j, hamming q d)
    | some (j2, d2) => if hamming q d ≤ d2 then some (j, hamming q d) else some (j2, d2)

/-- The per-query-descriptor step of the cross-checking matcher: `p` is one
`(index, descriptor)` pair of the query set. -/
def ccmAux (query train : List Desc) (p : Nat × Desc) : Option DMatch :=
  match bestNeighbor p.2 train.enum with
  | none => none
  | some (j, dist) =>
    match bestNeighbor (train.getD j []) query.enum with
    | none => none
    | some (i2, _) => if i2 = p.1 then some ⟨p.1, j, dist⟩ else none

/-- `cv2.BFMatcher(cv2.NORM_HAMMING, crossCheck=True).match`: keep the pair
`(i, j)` exactly when `j` is the nearest train descriptor to query `i` and `i`
is the nearest query descriptor to train `j` (mutual best match). -/
def crossCheckMatch (query train : List Desc) : List DMatch :=
  query.enum.filterMap (ccmAux query train)

/-- `matches = sorted(matches, key=lambda x: x.distance)` in
`calculate_similarity` (Python's sort is stable; so is insertion sort). -/
def sortedMatches (ms : List DMatch) : List DMatch :=
  List.insertionSort (fun a b => a.distance ≤ b.distance) ms

/-- `excellent_matches = [m for m in matches if m.distance < 25]`. -/
def excellentMatches (ms : List DMatch) : List DMatch :=
  (sortedMatches ms).filter (fun m => m.distance < 25)

/-- `good_matches = [m for m in matches if m.distance < 40]`. -/
def goodMatches (ms : List DMatch) : List DMatch :=
  (sortedMatches ms).filter (fun m => m.distance < 40)

/-- `decent_matches = [m for m in matches if m.distance < 60]`. -/
def decentMatches (ms : List DMatch) : List DMatch :=
  (sortedMatches ms).filter (fun m => m.distance < 60)

/-- `total_features = min(len(descriptors1), len(descriptors2))`, as the
rational denominator of the tier ratios. -/
def totalFeatures (n1 n2 : Nat) : ℚ := (min n1 n2 : Nat)

/-- `excellent_ratio = len(excellent_matches) / total_features`. -/
def excellentRatio (n1 n2 : Nat) (ms : List DMatch) : ℚ :=
  ((excellentMatches ms).length : ℚ) / totalFeatures n1 n2

/-- `good_ratio = len(good_matches) / total_features`. -/
def goodRatio (n1 n2 : Nat) (ms : List DMatch) : ℚ :=
  ((goodMatches ms).length : ℚ) / totalFeatures n1 n2

/-- `decent_ratio = len(decent_matches) / total_features`. -/
def decentRatio (n1 n2 : Nat) (ms : List DMatch) : ℚ :=
  ((decentMatches ms).length : ℚ) / totalFeatures n1 n2

/-- `quality_score = (excellent_ratio*1.0 + good_ratio*0.7 + decent_ratio*0.4) / 3.0`. -/
def qualityScore (n1 n2 : Nat) (ms : List DMatch) : ℚ :=
  (excellentRatio n1 n2 ms * 1 + goodRatio n1 n2 ms * (7/10) +
    decentRatio n1 n2 ms * (4/10)) / 3

/-- `avg_distance = sum(m.distance for m in good_matches) / len(good_matches)`. -/
def avgGoodDistance (ms : List DMatch) : ℚ :=
  ((((goodMatches ms).map (fun m => m.distance)).sum : Nat) : ℚ) /
    ((goodMatches ms).length : ℚ)

/-- `distance_score = max(0, (80 - avg_distance) / 80)` when there is at least
one good match, else `0.0`. -/
def distanceScore (ms : List DMatch) : ℚ :=
  if 0 < (goodMatches ms).length then qmax 0 ((80 - avgGoodDistance ms) / 80) else 0

/-- `coverage_score = len(decent_matches) / total_features`. -/
def coverageScore (n1 n2 : Nat) (ms : List DMatch) : ℚ :=
  ((decentMatches ms).length : ℚ) / totalFeatures n1 n2

/-- `final_score = quality_score*0.5 + distance_score*0.3 + coverage_score*0.2`. -/
def finalScore (n1 n2 : Nat) (ms : List DMatch) : ℚ :=
  qualityScore n1 n2 ms * (5/10) + distanceScore ms * (3/10) +
    coverageScore n1 n2 ms * (2/10)

/-- `final_score` after the excellent-match bonus
`if excellent_ratio > 0.1: final_score += min(excellent_ratio * 0.2, 0.1)`. -/
def finalWithBonus (n1 n2 : Nat) (ms : List DMatch) : ℚ :=
  if excellentRatio n1 n2 ms > 1/10 then
    finalScore n1 n2 ms + qmin (excellentRatio n1 n2 ms * (2/10)) (1/10)
  else finalScore n1 n2 ms

/-- `calculate_similarity` from `main.py`, over rationals: empty or missing
inputs score `0.0`; no matches score `0.0`; otherwise the bonus-adjusted final
score clamped by `return min(final_score, 1.0)`. -/
def calculate_similarity (descriptors1 descriptors2 : List Desc) : ℚ :=
  if descriptors1.isEmpty || descriptors2.isEmpty then 0
  else
    let ms := crossCheckMatch descriptors1 descriptors2
    if ms.isEmpty then 0
    else qmin (finalWithBonus descriptors1.length descriptors2.length ms) 1

/-! ### Cardinality of the cross-check match list

With `crossCheck=True` every query descriptor contributes at most one match
and no train descriptor is used twice, so the number of matches is at most
`min(|query|, |train|)`.  This is what keeps every tier ratio at most `1`. -/

theorem bestNeighbor_mem {q : Desc} {l : List (Nat × Desc)} {j d : Nat}
    (h : bestNeighbor q l = some (j, d)) : ∃ x, (j, x) ∈ l := by
  induction l with
  | nil => simp [bestNeighbor] at h
  | cons hd tl ih =>
    obtain ⟨j0, d0⟩ := hd
    unfold bestNeighbor at h
    split at h
    · simp only [Option.some.injEq, Prod.mk.injEq] at h
      exact ⟨d0, by simp [h.1]⟩
    · rename_i j2 d2 htl
      split at h
      · simp only [Option.some.injEq, Prod.mk.injEq] at h
        exact ⟨d0, by simp [h.1]⟩
      · simp only [Option.some.injEq, Prod.mk.injEq] at h
        obtain ⟨x, hx⟩ := ih (by rw [htl, h.1, h.2])
        exact ⟨x, List.mem_cons_of_mem _ hx⟩

theorem ccmAux_some {q t : List Desc} {p : Nat × Desc} {m : DMatch}
    (h : ccmAux q t p = some m) :
    m.queryIdx = p.1 ∧ (∃ x, (m.trainIdx, x) ∈ t.enum) ∧
      ∃ d2, bestNeighbor (t.getD m.trainIdx []) q.enum = some (m.queryIdx, d2) := by
  unfold ccmAux at h
  split at h
  · exact absurd h (by simp)
  · rename_i j dist hb
    split at h
    · exact absurd h (by simp)
    · rename_i i2 dd hb2
      split at h
      · rename_i hi
        simp only [Option.some.injEq] at h
        subst h
        refine ⟨rfl, ?_, ?_⟩
        · exact bestNeighbor_mem hb
        · exact ⟨dd, by rw [hb2, hi]⟩
      · exact absurd h (by simp)

theorem filterMap_ccm_pairwise_query (q t : List Desc) (l : List (Nat × Desc))
    (hnd : (l.map Prod.fst).Nodup) :
    (l.filterMap (ccmAux q t)).Pairwise (fun m1 m2 => m1.queryIdx ≠ m2.queryIdx) := by
  induction l with
  | nil => simp
  | cons p tl ih =>
    simp only [List.map_cons, List.nodup_cons] at hnd
    rw [List.filterMap_cons]
    cases hf : ccmAux q t p with
    | none => exact ih hnd.2
    | some m =>
      refine List.Pairwise.cons ?_ (ih hnd.2)
      intro m2 hm2
      obtain ⟨p2, hp2, hf2⟩ := List.mem_filterMap.mp hm2
      rw [(ccmAux_some hf).1, (ccmAux_some hf2).1]
      intro he
      exact hnd.1 (he ▸ List.mem_map_of_mem Prod.fst hp2)

theorem crossCheckMatch_pairwise_query (q t : List Desc) :
    (crossCheckMatch q t).Pairwise (fun m1 m2 => m1.queryIdx ≠ m2.queryIdx) :=
  filterMap_ccm_pairwise_query q t q.enum
    (by rw [List.enum_map_fst]; exact List.nodup_range _)

theorem crossCheckMatch_pairwise_train (q t : List Desc) :
    (crossCheckMatch q t).Pairwise (fun m1 m2 => m1.trainIdx ≠ m2.trainIdx) := by
  refine (crossCheckMatch_pairwise_query q t).imp_of_mem ?_
  intro m1 m2 h1 h2 hne he
  obtain ⟨p1, hp1, hf1⟩ := List.mem_filterMap.mp h1
  obtain ⟨p2, hp2, hf2⟩ := List.mem_filterMap.mp h2
  obtain ⟨_, _, d1, hb1⟩ := ccmAux_some hf1
  obtain ⟨_, _, d2, hb2⟩ := ccmAux_some hf2
  rw [he, hb2] at hb1
  simp only [Option.some.injEq, Prod.mk.injEq] at hb1
  exact hne hb1.1.symm

theorem crossCheckMatch_length_le_train (q t : List Desc) :
    (crossCheckMatch q t).length ≤ t.length := by
  have hnd : ((crossCheckMatch q t).map (fun m => m.trainIdx)).Nodup :=
    List.pairwise_map.mpr (crossCheckMatch_pairwise_train q t)
  have hlt : ∀ j ∈ (crossCheckMatch q t).map (fun m => m.trainIdx), j < t.length := by
    intro j hj
    obtain ⟨m, hm, rfl⟩ := List.mem_map.mp hj
    obtain ⟨p, hp, hf⟩ := List.mem_filterMap.mp hm
    obtain ⟨_, ⟨x, hx⟩, _⟩ := ccmAux_some hf
    obtain ⟨hlt, -⟩ := List.getElem?_eq_some.mp (List.mem_enum_iff_getElem?.mp hx)
    exact hlt
  calc (crossCheckMatch q t).length
      = ((crossCheckMatch q t).map (fun m => m.trainIdx)).length :=
        (List.length_map _ _).symm
    _ = ((crossCheckMatch q t).map (fun m => m.trainIdx)).toFinset.card :=
        (List.toFinset_card_of_nodup hnd).symm
    _ ≤ (Finset.range t.length).card := by
        refine Finset.card_le_card ?_
        intro j hj
        rw [List.mem_toFinset] at hj
        exact Finset.mem_range.mpr (hlt j hj)
    _ = t.length := Finset.card_range _

theorem crossCheckMatch_length_le_query (q t : List Desc) :
    (crossCheckMatch q t).length ≤ q.length := by
  calc (crossCheckMatch q t).length ≤ q.enum.length :=
        List.length_filterMap_le _ _
    _ = q.length := List.enum_length

theorem crossCheckMatch_length_le_min (q t : List Desc) :
    (crossCheckMatch q t).length ≤ min q.length t.length :=
  le_min (crossCheckMatch_length_le_query q t) (crossCheckMatch_length_le_train q t)

/-! ### Bounds for the scorer components -/

theorem qmin_eq_left {a b : ℚ} (h : a ≤ b) : qmin a b = a := by
  unfold qmin; exact if_pos h

theorem totalFeatures_nonneg (n1 n2 : Nat) : 0 ≤ totalFeatures n1 n2 :=
  Nat.cast_nonneg _

theorem excellentRatio_nonneg (n1 n2 : Nat) (ms : List DMatch) :
    0 ≤ excellentRatio n1 n2 ms :=
  div_nonneg (Nat.cast_nonneg _) (totalFeatures_nonneg n1 n2)

theorem goodRatio_nonneg (n1 n2 : Nat) (ms : List DMatch) : 0 ≤ goodRatio n1 n2 ms :=
  div_nonneg (Nat.cast_nonneg _) (totalFeatures_nonneg n1 n2)

theorem decentRatio_nonneg (n1 n2 : Nat) (ms : List DMatch) : 0 ≤ decentRatio n1 n2 ms :=
  div_nonneg (Nat.cast_nonneg _) (totalFeatures_nonneg n1 n2)

theorem qualityScore_nonneg (n1 n2 : Nat) (ms : List DMatch) :
    0 ≤ qualityScore n1 n2 ms := by
  unfold qualityScore
  have h1 := excellentRatio_nonneg n1 n2 ms
  have h2 := goodRatio_nonneg n1 n2 ms
  have h3 := decentRatio_nonneg n1 n2 ms
  have : (0:ℚ) ≤ excellentRatio n1 n2 ms * 1 + goodRatio n1 n2 ms * (7/10) +
      decentRatio n1 n2 ms * (4/10) := by nlinarith
  linarith [div_nonneg this (by norm_num : (0:ℚ) ≤ 3)]

theorem distanceScore_nonneg (ms : List DMatch) : 0 ≤ distanceScore ms := by
  unfold distanceScore
  split
  · exact qmax_nonneg_left (le_refl 0)
  · exact le_refl 0

theorem coverageScore_nonneg (n1 n2 : Nat) (ms : List DMatch) :
    0 ≤ coverageScore n1 n2 ms :=
  div_nonneg (Nat.cast_nonneg _) (totalFeatures_nonneg n1 n2)

theorem finalScore_nonneg (n1 n2 : Nat) (ms : List DMatch) :
    0 ≤ finalScore n1 n2 ms := by
  unfold finalScore
  have h1 := qualityScore_nonneg n1 n2 ms
  have h2 := distanceScore_nonneg ms
  have h3 := coverageScore_nonneg n1 n2 ms
  nlinarith

theorem finalWithBonus_nonneg (n1 n2 : Nat) (ms : List DMatch) :
    0 ≤ finalWithBonus n1 n2 ms := by
  unfold finalWithBonus
  split
  · have hb : 0 ≤ qmin (excellentRatio n1 n2 ms * (2/10)) (1/10) :=
      qmin_nonneg (by nlinarith [excellentRatio_nonneg n1 n2 ms]) (by norm_num)
    linarith [finalScore_nonneg n1 n2 ms]
  · exact finalScore_nonneg n1 n2 ms

/-- C3: for all descriptor sets A and B, the similarity scorer returns a value
in [0, 1], and returns exactly 0 whenever either input is empty or missing. -/
theorem claim_C3_score_bounded_and_zero_on_empty (d1 d2 : List Desc) :
    (0 ≤ calculate_similarity d1 d2 ∧ calculate_similarity d1 d2 ≤ 1) ∧
      ((d1 = [] ∨ d2 = []) → calculate_similarity d1 d2 = 0) := by
  constructor
  · by_cases hc : (d1.isEmpty || d2.isEmpty) = true
    · simp [calculate_similarity, hc]
    · by_cases hm : (crossCheckMatch d1 d2).isEmpty
      · simp [calculate_similarity, hc, hm]
      · have hval : calculate_similarity d1 d2 =
            qmin (finalWithBonus d1.length d2.length (crossCheckMatch d1 d2)) 1 := by
          simp [calculate_similarity, hc, hm]
        rw [hval]
        exact ⟨qmin_nonneg (finalWithBonus_nonneg _ _ _) (by norm_num),
          qmin_le_right _ _⟩
  · intro hemp
    have hc : (d1.isEmpty || d2.isEmpty) = true := by
      rcases hemp with h | h <;> simp [h]
    simp [calculate_similarity, hc]

theorem claim_C3_score_bounded_and_zero_on_empty_w :
    0 ≤ calculate_similarity [[true]] [[false]] ∧
      calculate_similarity [[true]] [[false]] ≤ 1 ∧
      calculate_similarity [] [[false]] = 0 :=
  ⟨(claim_C3_score_bounded_and_zero_on_empty [[true]] [[false]]).1.1,
   (claim_C3_score_bounded_and_zero_on_empty [[true]] [[false]]).1.2,
   (claim_C3_score_bounded_and_zero_on_empty [] [[false]]).2 (Or.inl rfl)⟩

/-! ### C2 — the scoring formula as the specification words it

The following `spec…` definitions transcribe the claim's own wording (tier
counts over the match list, ratios over `min(|query|, |candidate|)`, the
weighted quality average, the final combination and the conditional bonus,
with no clamping step).  The claim is settled by proving that the code's
`calculate_similarity` coincides with this formula on non-empty inputs. -/

/-- Claim wording: a cumulative tier is the set of matches with Hamming
distance below the tier threshold. -/
def specTierCount (thr : Nat) (d1 d2 : List Desc) : Nat :=
  (crossCheckMatch d1 d2).countP (fun m => m.distance < thr)

/-- Claim wording: tier ratio = tier count / min(|query|, |candidate|). -/
def specTierRatio (thr : Nat) (d1 d2 : List Desc) : ℚ :=
  (specTierCount thr d1 d2 : ℚ) / ((min d1.length d2.length : Nat) : ℚ)

/-- Claim wording: `quality_score = (excellent·1.0 + good·0.7 + decent·0.4)/3`. -/
def specQuality (d1 d2 : List Desc) : ℚ :=
  (specTierRatio 25 d1 d2 * 1 + specTierRatio 40 d1 d2 * (7/10) +
    specTierRatio 60 d1 d2 * (4/10)) / 3

/-- Spec §4.2: `distance_score` = normalised inverse of the mean distance of
good matches, `0` if there are none. -/
def specDistanceScore (d1 d2 : List Desc) : ℚ :=
  if 0 < specTierCount 40 d1 d2 then
    qmax 0 ((80 - (((((crossCheckMatch d1 d2).filter
        (fun m => m.distance < 40)).map (fun m => m.distance)).sum : Nat) : ℚ) /
          (specTierCount 40 d1 d2 : ℚ)) / 80)
  else 0

/-- Spec §4.2: `coverage_score` = decent match count / min(|query|, |candidate|). -/
def specCoverage (d1 d2 : List Desc) : ℚ := specTierRatio 60 d1 d2

/-- Claim wording: `final = 0.5·quality + 0.3·distance + 0.2·coverage`, with a
bonus of `min(excellent_ratio·0.2, 0.1)` added exactly when
`excellent_ratio > 0.1` — and no further clamping. -/
def specFinalScore (d1 d2 : List Desc) : ℚ :=
  specQuality d1 d2 * (5/10) + specDistanceScore d1 d2 * (3/10) +
    specCoverage d1 d2 * (2/10) +
    (if specTierRatio 25 d1 d2 > 1/10 then
      qmin (specTierRatio 25 d1 d2 * (2/10)) (1/10) else 0)

theorem sorted_filter_length (p : DMatch → Bool) (ms : List DMatch) :
    ((sortedMatches ms).filter p).length = ms.countP p := by
  rw [← List.countP_eq_length_filter]
  exact List.Perm.countP_eq p (List.perm_insertionSort _ ms)

theorem sorted_filter_sum (p : DMatch → Bool) (ms : List DMatch) :
    (((sortedMatches ms).filter p).map (fun m => m.distance)).sum =
      ((ms.filter p).map (fun m => m.distance)).sum :=
  List.Perm.sum_eq (List.Perm.map _ (List.Perm.filter p (List.perm_insertionSort _ ms)))

theorem excellentRatio_eq (d1 d2 : List Desc) :
    excellentRatio d1.length d2.length (crossCheckMatch d1 d2) = specTierRatio 25 d1 d2 := by
  unfold excellentRatio excellentMatches totalFeatures specTierRatio specTierCount
  rw [sorted_filter_length]

theorem goodRatio_eq (d1 d2 : List Desc) :
    goodRatio d1.length d2.length (crossCheckMatch d1 d2) = specTierRatio 40 d1 d2 := by
  unfold goodRatio goodMatches totalFeatures specTierRatio specTierCount
  rw [sorted_filter_length]

theorem decentRatio_eq (d1 d2 : List Desc) :
    decentRatio d1.length d2.length (crossCheckMatch d1 d2) = specTierRatio 60 d1 d2 := by
  unfold decentRatio decentMatches totalFeatures specTierRatio specTierCount
  rw [sorted_filter_length]

theorem qualityScore_eq (d1 d2 : List Desc) :
    qualityScore d1.length d2.length (crossCheckMatch d1 d2) = specQuality d1 d2 := by
  unfold qualityScore specQuality
  rw [excellentRatio_eq, goodRatio_eq, decentRatio_eq]

theorem distanceScore_eq (d1 d2 : List Desc) :
    distanceScore (crossCheckMatch d1 d2) = specDistanceScore d1 d2 := by
  unfold distanceScore specDistanceScore avgGoodDistance goodMatches specTierCount
  rw [sorted_filter_length, sorted_filter_sum]

theorem coverageScore_eq (d1 d2 : List Desc) :
    coverageScore d1.length d2.length (crossCheckMatch d1 d2) = specCoverage d1 d2 := by
  unfold coverageScore decentMatches totalFeatures specCoverage specTierRatio specTierCount
  rw [sorted_filter_length]

theorem finalWithBonus_eq (d1 d2 : List Desc) :
    finalWithBonus d1.length d2.length (crossCheckMatch d1 d2) = specFinalScore d1 d2 := by
  unfold finalWithBonus finalScore specFinalScore
  rw [qualityScore_eq, distanceScore_eq, coverageScore_eq, excellentRatio_eq]
  split_ifs <;> ring

theorem tier_ratio_le_one (d1 d2 : List Desc) (h1 : d1 ≠ []) (h2 : d2 ≠ [])
    (p : DMatch → Bool) :
    (((sortedMatches (crossCheckMatch d1 d2)).filter p).length : ℚ) /
      ((min d1.length d2.length : Nat) : ℚ) ≤ 1 := by
  have hpos : (0:ℚ) < ((min d1.length d2.length : Nat) : ℚ) := by
    have : 0 < min d1.length d2.length :=
      lt_min (List.length_pos.mpr h1) (List.length_pos.mpr h2)
    exact_mod_cast this
  rw [div_le_one hpos]
  have : ((sortedMatches (crossCheckMatch d1 d2)).filter p).length ≤
      min d1.length d2.length := by
    rw [sorted_filter_length]
    exact le_trans (List.countP_le_length p) (crossCheckMatch_length_le_min d1 d2)
  exact_mod_cast this

theorem distanceScore_le_one (ms : List DMatch) : distanceScore ms ≤ 1 := by
  unfold distanceScore
  split
  · refine qmax_le (by norm_num) ?_
    have havg : 0 ≤ avgGoodDistance ms := by
      unfold avgGoodDistance
      exact div_nonneg (Nat.cast_nonneg _) (Nat.cast_nonneg _)
    rw [div_le_one (by norm_num : (0:ℚ) < 80)]
    linarith
  · norm_num

theorem finalWithBonus_le_one (d1 d2 : List Desc) (h1 : d1 ≠ []) (h2 : d2 ≠ []) :
    finalWithBonus d1.length d2.length (crossCheckMatch d1 d2) ≤ 1 := by
  have he : excellentRatio d1.length d2.length (crossCheckMatch d1 d2) ≤ 1 := by
    unfold excellentRatio excellentMatches totalFeatures
    exact tier_ratio_le_one d1 d2 h1 h2 _
  have hg : goodRatio d1.length d2.length (crossCheckMatch d1 d2) ≤ 1 := by
    unfold goodRatio goodMatches totalFeatures
    exact tier_ratio_le_one d1 d2 h1 h2 _
  have hdc : decentRatio d1.length d2.length (crossCheckMatch d1 d2) ≤ 1 := by
    unfold decentRatio decentMatches totalFeatures
    exact tier_ratio_le_one d1 d2 h1 h2 _
  have hq : qualityScore d1.length d2.length (crossCheckMatch d1 d2) ≤ 7/10 := by
    unfold qualityScore
    have h1n := excellentRatio_nonneg d1.length d2.length (crossCheckMatch d1 d2)
    have h2n := goodRatio_nonneg d1.length d2.length (crossCheckMatch d1 d2)
    have h3n := decentRatio_nonneg d1.length d2.length (crossCheckMatch d1 d2)
    linarith
  have hds := distanceScore_le_one (crossCheckMatch d1 d2)
  have hcov : coverageScore d1.length d2.length (crossCheckMatch d1 d2) ≤ 1 := by
    unfold coverageScore totalFeatures
    have := tier_ratio_le_one d1 d2 h1 h2 (fun m => m.distance < 60)
    unfold decentMatches
    exact this
  have hqn := qualityScore_nonneg d1.length d2.length (crossCheckMatch d1 d2)
  have hdn := distanceScore_nonneg (crossCheckMatch d1 d2)
  have hcn := coverageScore_nonneg d1.length d2.length (crossCheckMatch d1 d2)
  unfold finalWithBonus finalScore
  split
  · have hb := qmin_le_right
      (excellentRatio d1.length d2.length (crossCheckMatch d1 d2) * (2/10)) (1/10)
    linarith
  · linarith

/-- C2: for every pair of non-empty descriptor sets the scorer computes the
tier counts at Hamming distance < 25/40/60, the tier ratios over
`min(|query|, |candidate|)`, `quality = (e·1.0 + g·0.7 + d·0.4)/3`, and returns
exactly `0.5·quality + 0.3·distance + 0.2·coverage` plus the bonus
`min(excellent_ratio·0.2, 0.1)` exactly when `excellent_ratio > 0.1` (the
code's final clamp at `1.0` never engages). -/
theorem claim_C2_scoring_formula (d1 d2 : List Desc) (h1 : d1 ≠ []) (h2 : d2 ≠ []) :
    calculate_similarity d1 d2 = specFinalScore d1 d2 := by
  have hc : ¬(d1.isEmpty || d2.isEmpty) = true := by
    simp [List.isEmpty_iff, h1, h2]
  by_cases hm : (crossCheckMatch d1 d2).isEmpty
  · have hnil : crossCheckMatch d1 d2 = [] := by
      simpa [List.isEmpty_iff] using hm
    simp only [calculate_similarity, hc, hm, specFinalScore, specQuality, specTierRatio,
      specTierCount, specDistanceScore, specCoverage, hnil]
    norm_num
  · have hval : calculate_similarity d1 d2 =
        qmin (finalWithBonus d1.length d2.length (crossCheckMatch d1 d2)) 1 := by
      simp [calculate_similarity, hc, hm]
    rw [hval, qmin_eq_left (finalWithBonus_le_one d1 d2 h1 h2), finalWithBonus_eq]

unseal Rat.add Rat.mul Rat.inv Rat.sub in
theorem claim_C2_scoring_formula_w :
    [[true]] ≠ ([] : List Desc) ∧ [[true, false]] ≠ ([] : List Desc) ∧
      calculate_similarity [[true]] [[true, false]] =
        specFinalScore [[true]] [[true, false]] :=
  ⟨by decide, by decide, claim_C2_scoring_formula _ _ (by decide) (by decide)⟩

/-! ### Data model of the matcher state and search results

Python dicts are modelled as association lists in insertion order (Python
dicts preserve it); `dict.get(k, default)` becomes an `Option` lookup.  The
`image_shape` metadata value is a Python tuple in memory and becomes a JSON
array (a Python list) after a save/load round trip, so the shape is tagged
with its tuple-vs-list nature. -/

/-- A Python value holding image dimensions: `image.shape` is a tuple; after
a JSON round trip it is read back as a list. -/
inductive PyShape where
  | tup (dims : List Nat)
  | arr (dims : List Nat)
deriving DecidableEq, Repr

/-- One entry of `database_metadata`. -/
structure Metadata where
  filename : String
  path : String
  features_count : Nat
  image_shape : PyShape
deriving DecidableEq, Repr

/-- JSON serialisation normalisation: `json.dump` writes a tuple as an array
and `json.load` reads it back as a list. -/
def jsonNormShape : PyShape → PyShape
  | .tup l => .arr l
  | .arr l => .arr l

/-- Metadata after a JSON round trip. -/
def jsonNormMeta (m : Metadata) : Metadata :=
  { m with image_shape := jsonNormShape m.image_shape }

/-- One result dict produced by a search strategy.  `metadata = none` models
the `{}` default of `database_metadata.get(path, {})`; `early_stopped = none`
models a result dict without the `early_stopped` key (hybrid results). -/
structure SearchResult where
  image_path : String
  similarity_score : ℚ
  metadata : Option Metadata
  early_stopped : Option Bool
deriving DecidableEq, Repr

/-- The performance tunables of `ImageMatcher` touched by the search paths and
the `/performance/config` endpoint.  Integer fields are Python ints. -/
structure PerfConfig where
  early_stop_threshold : ℚ
  min_threshold : ℚ
  max_workers : Int
  use_parallel_search : Bool
  batch_size : Int
  use_annoy : Bool
  annoy_search_k : Int
deriving DecidableEq, Repr

/-- The constructor defaults of `ImageMatcher`. -/
def defaultConfig : PerfConfig :=
  { early_stop_threshold := 98/100
    min_threshold := 2/10
    max_workers := 16
    use_parallel_search := true
    batch_size := 100
    use_annoy := true
    annoy_search_k := 200 }

/-- The in-memory descriptor store: `database_features` and
`database_metadata`, keyed by relative image path. -/
structure MatcherState where
  database_features : List (String × List Desc)
  database_metadata : List (String × Metadata)
deriving DecidableEq, Repr

/-- Build one result dict: `database_metadata.get(image_path, {})` provides
the metadata. -/
def mkResult (meta : List (String × Metadata)) (p : String) (s : ℚ)
    (flag : Option Bool) : SearchResult :=
  ⟨p, s, List.lookup p meta, flag⟩

/-- `results.sort(key=lambda x: x['similarity_score'], reverse=True)`:
a stable descending sort by score. -/
def sortResultsDesc (l : List SearchResult) : List SearchResult :=
  List.insertionSort (fun a b => b.similarity_score ≤ a.similarity_score) l

/-- The loop of `_search_sequential`: early-stop returns a single-element
list at once; candidates reaching `min_threshold` accumulate; at exhaustion
the accumulator is sorted descending and truncated to `top_k`. -/
def searchSequentialGo (cfg : PerfConfig) (meta : List (String × Metadata))
    (q : List Desc) (top_k : Nat) :
    List (String × List Desc) → List SearchResult → List SearchResult
  | [], results => (sortResultsDesc results).take top_k
  | (p, ds) :: rest, results =>
    let s := calculate_similarity q ds
    if cfg.early_stop_threshold ≤ s then [mkResult meta p s (some true)]
    else if cfg.min_threshold ≤ s then
      searchSequentialGo cfg meta q top_k rest (results ++ [mkResult meta p s (some false)])
    else searchSequentialGo cfg meta q top_k rest results

/-- `_search_sequential`. -/
def searchSequential (cfg : PerfConfig) (st : MatcherState) (q : List Desc)
    (top_k : Nat) : List SearchResult :=
  searchSequentialGo cfg st.database_metadata q top_k st.database_features []

/-- The loop of `_calculate_similarity_batch`: an early stop inside a batch
returns only that single flagged result, discarding the batch accumulator. -/
def similarityBatchGo (cfg : PerfConfig) (meta : List (String × Metadata))
    (q : List Desc) :
    List (String × List Desc) → List SearchResult → List SearchResult
  | [], acc => acc
  | (p, ds) :: rest, acc =>
    let s := calculate_similarity q ds
    if cfg.early_stop_threshold ≤ s then [mkResult meta p s (some true)]
    else if cfg.min_threshold ≤ s then
      similarityBatchGo cfg meta q rest (acc ++ [mkResult meta p s (some false)])
    else similarityBatchGo cfg meta q rest acc

/-- `_calculate_similarity_batch`. -/
def similarityBatch (cfg : PerfConfig) (meta : List (String × Metadata))
    (q : List Desc) (batch : List (String × List Desc)) : List SearchResult :=
  similarityBatchGo cfg meta q batch []

/-- Chunking loop with an explicit fuel argument (the list length), so that
the definition is structurally recursive; one chunk consumes at least one
element, so fuel `l.length` always suffices for a positive chunk size. -/
def chunkGo (n : Nat) : Nat → List (String × List Desc) → List (List (String × List Desc))
  | _, [] => []
  | 0, _ :: _ => []
  | fuel + 1, x :: xs => ((x :: xs).take n) :: chunkGo n fuel (xs.drop (n - 1))

/-- `[database_items[i:i+batch_size] for i in range(0, len(database_items),
batch_size)]` for a positive batch size. -/
def chunkList (n : Nat) (l : List (String × List Desc)) :
    List (List (String × List Desc)) :=
  chunkGo n l.length l

/-- The `as_completed` loop of `_search_parallel`: batch result lists arrive
in completion order; the first flagged `early_stopped` result is returned
alone, cancelling the rest; otherwise results accumulate and are sorted by
descending score and truncated to `top_k`. -/
def parallelMerge (cfg : PerfConfig) (meta : List (String × Metadata))
    (q : List Desc) (top_k : Nat) :
    List (List (String × List Desc)) → List SearchResult → List SearchResult
  | [], acc => (sortResultsDesc acc).take top_k
  | b :: rest, acc =>
    let br := similarityBatch cfg meta q b
    match br.find? (fun r => r.early_stopped == some true) with
    | some r => [r]
    | none => parallelMerge cfg meta q top_k rest (acc ++ br)

/-- `_search_parallel`, parameterised by the completion order of the batch
futures: `order` lists batch indices in the order `as_completed` yields them
(a permutation of `range (number of batches)` for any real scheduler). -/
def searchParallel (cfg : PerfConfig) (st : MatcherState) (q : List Desc)
    (top_k : Nat) (order : List Nat) : List SearchResult :=
  let batches := chunkList cfg.batch_size.toNat st.database_features
  parallelMerge cfg st.database_metadata q top_k
    (order.filterMap (fun i => batches.get? i)) []

/-! ### Hybrid (Annoy + ORB) search -/

/-- The external Annoy index, as consumed by the code: `get_nns_by_vector`
returns ids with angular distances.  Purely an oracle. -/
structure AnnIdx where
  nns : Desc → Nat → List (Nat × ℚ)

/-- The per-image accumulator of Phase 1:
`{'annoy_scores': [...], 'annoy_best': ...}`. -/
structure AnnScores where
  annoy_scores : List ℚ
  annoy_best : ℚ
deriving DecidableEq, Repr

/-- Record one Annoy hit for an image: append the similarity and update the
best score (the dict entry is initialised with best `0.0`). -/
def annRecord : List (String × AnnScores) → String → ℚ → List (String × AnnScores)
  | [], k, sim => [(k, ⟨[sim], qmax 0 sim⟩)]
  | (k2, v) :: rest, k, sim =>
    if k2 = k then (k, ⟨v.annoy_scores ++ [sim], qmax v.annoy_best sim⟩) :: rest
    else (k2, v) :: annRecord rest k sim

/-- Phase 1 of `_search_with_annoy`: for every query descriptor, ask the index
for `search_k_expanded` neighbours, drop ids without an image mapping, convert
each angular distance with `max(0, 1 - distance/2)` and accumulate per-image
score lists in first-seen order. -/
def annPhase1 (idx : AnnIdx) (idToImage : List (Nat × String)) (q : List Desc)
    (searchKExpanded : Nat) : List (String × AnnScores) :=
  q.foldl (fun acc qd =>
    (idx.nns qd searchKExpanded).foldl (fun acc2 pr =>
      match List.lookup pr.1 idToImage with
      | none => acc2
      | some path => annRecord acc2 path (qmax 0 (1 - pr.2 / 2))) acc) []

/-- `sorted(candidate_images, key=lambda img: annoy_best, reverse=True)
[:min(100, len(candidate_images))]`. -/
def annTopCandidates (p1 : List (String × AnnScores)) : List String :=
  ((List.insertionSort (fun a b : String × AnnScores => b.2.annoy_best ≤ a.2.annoy_best)
    p1).map (fun p => p.1)).take (min 100 p1.length)

/-- `annoy_avg = sum(annoy_scores) / len(annoy_scores)`. -/
def annAvg (v : AnnScores) : ℚ := v.annoy_scores.sum / (v.annoy_scores.length : ℚ)

/-- `hybrid_score = orb_similarity * 0.7 + annoy_avg * 0.3`. -/
def hybridScore (orb annoyAvg : ℚ) : ℚ := orb * (7/10) + annoyAvg * (3/10)

/-- Phase 2 of `_search_with_annoy`: rescore each top candidate with the exact
scorer, blend `0.7·ORB + 0.3·mean(Annoy)`, keep candidates reaching
`min_threshold`, return a singleton at once if one reaches
`early_stop_threshold`, and finally sort descending and truncate to `top_k`. -/
def annPhase2 (cfg : PerfConfig) (st : MatcherState) (q : List Desc) (top_k : Nat)
    (p1 : List (String × AnnScores)) :
    List String → List SearchResult → List SearchResult
  | [], acc => (sortResultsDesc acc).take top_k
  | path :: rest, acc =>
    match List.lookup path st.database_features with
    | none => annPhase2 cfg st q top_k p1 rest acc
    | some db =>
      match List.lookup path p1 with
      | none => annPhase2 cfg st q top_k p1 rest acc
      | some v =>
        let hs := hybridScore (calculate_similarity q db) (annAvg v)
        if cfg.min_threshold ≤ hs then
          let r := mkResult st.database_metadata path hs none
          if cfg.early_stop_threshold ≤ hs then [r]
          else annPhase2 cfg st q top_k p1 rest (acc ++ [r])
        else annPhase2 cfg st q top_k p1 rest acc

/-- `search_k_expanded = min(self.annoy_search_k * 3, 300)` (python ints). -/
def searchKExpandedOf (cfg : PerfConfig) : Int := min (cfg.annoy_search_k * 3) 300

/-- `_search_with_annoy`: falls back to the sequential strategy when the index
object is `None`; otherwise runs the two-phase hybrid search. -/
def searchWithAnnoy (cfg : PerfConfig) (ann : Option AnnIdx)
    (idToImage : List (Nat × String)) (st : MatcherState) (q : List Desc)
    (top_k : Nat) : List SearchResult :=
  match ann with
  | none => searchSequential cfg st q top_k
  | some idx =>
    let p1 := annPhase1 idx idToImage q (searchKExpandedOf cfg).toNat
    annPhase2 cfg st q top_k p1 (annTopCandidates p1) []

/-- `search_similar_images` (orchestration only: feature extraction of the
query is the caller's input here): empty query descriptors short-circuit to
`[]`; otherwise Annoy-enabled-and-loaded selects hybrid, then the parallel
flag selects parallel, else sequential. -/
def search_similar_images (cfg : PerfConfig) (ann : Option AnnIdx)
    (idToImage : List (Nat × String)) (st : MatcherState) (q : List Desc)
    (top_k : Nat) (order : List Nat) : List SearchResult :=
  if q.isEmpty then []
  else if cfg.use_annoy && ann.isSome then searchWithAnnoy cfg ann idToImage st q top_k
  else if cfg.use_parallel_search then searchParallel cfg st q top_k order
  else searchSequential cfg st q top_k

@[simp] theorem mkResult_score (meta : List (String × Metadata)) (p : String)
    (s : ℚ) (flag : Option Bool) : (mkResult meta p s flag).similarity_score = s := rfl

@[simp] theorem mkResult_flag (meta : List (String × Metadata)) (p : String)
    (s : ℚ) (flag : Option Bool) : (mkResult meta p s flag).early_stopped = flag := rfl

/-- C8: a query whose extracted descriptor set is empty yields an empty result
list from the search entry point, whatever strategy the configuration selects
(hybrid, parallel or sequential) and whatever the store contents. -/
theorem claim_C8_empty_query_empty_result (cfg : PerfConfig) (ann : Option AnnIdx)
    (idToImage : List (Nat × String)) (st : MatcherState) (top_k : Nat)
    (order : List Nat) :
    search_similar_images cfg ann idToImage st [] top_k order = [] := by
  simp [search_similar_images]

/-- C10: when the Annoy index object is `None`, the orchestrator falls through
to the parallel or sequential strategy even with `use_annoy` enabled, and
`_search_with_annoy` itself delegates to the sequential strategy. -/
theorem claim_C10_missing_index_fallback (cfg : PerfConfig)
    (idToImage : List (Nat × String)) (st : MatcherState) (q : List Desc)
    (top_k : Nat) (order : List Nat) (hq : q ≠ []) :
    search_similar_images cfg none idToImage st q top_k order =
      (if cfg.use_parallel_search then searchParallel cfg st q top_k order
       else searchSequential cfg st q top_k) ∧
    searchWithAnnoy cfg none idToImage st q top_k = searchSequential cfg st q top_k := by
  constructor
  · simp [search_similar_images, List.isEmpty_iff, hq]
  · rfl

theorem claim_C10_missing_index_fallback_w :
    search_similar_images defaultConfig none [] ⟨[], []⟩ [[true]] 5 [] =
      (if defaultConfig.use_parallel_search
       then searchParallel defaultConfig ⟨[], []⟩ [[true]] 5 []
       else searchSequential defaultConfig ⟨[], []⟩ [[true]] 5) ∧
    searchWithAnnoy defaultConfig none [] ⟨[], []⟩ [[true]] 5 =
      searchSequential defaultConfig ⟨[], []⟩ [[true]] 5 :=
  claim_C10_missing_index_fallback defaultConfig [] ⟨[], []⟩ [[true]] 5 [] (by decide)

/-! ### C1 — the early-stop short circuit -/

theorem searchSequentialGo_early (cfg : PerfConfig) (meta : List (String × Metadata))
    (q : List Desc) (top_k : Nat) :
    ∀ (l : List (String × List Desc)) (acc : List SearchResult),
      (∃ pd ∈ l, cfg.early_stop_threshold ≤ calculate_similarity q pd.2) →
      ∃ p s, searchSequentialGo cfg meta q top_k l acc = [mkResult meta p s (some true)] ∧
        cfg.early_stop_threshold ≤ s := by
  intro l
  induction l with
  | nil => intro acc h; simp at h
  | cons pd rest ih =>
    obtain ⟨p, ds⟩ := pd
    intro acc h
    by_cases he : cfg.early_stop_threshold ≤ calculate_similarity q ds
    · exact ⟨p, calculate_similarity q ds, by simp [searchSequentialGo, he], he⟩
    · have h2 : ∃ pd ∈ rest, cfg.early_stop_threshold ≤ calculate_similarity q pd.2 := by
        rcases h with ⟨pd2, hmem, hsc⟩
        rcases List.mem_cons.mp hmem with rfl | hmem2
        · exact absurd hsc he
        · exact ⟨pd2, hmem2, hsc⟩
      by_cases hm : cfg.min_threshold ≤ calculate_similarity q ds
      · simpa [searchSequentialGo, he, hm] using ih _ h2
      · simpa [searchSequentialGo, he, hm] using ih _ h2

theorem similarityBatchGo_early (cfg : PerfConfig) (meta : List (String × Metadata))
    (q : List Desc) :
    ∀ (b : List (String × List Desc)) (acc : List SearchResult),
      (∃ pd ∈ b, cfg.early_stop_threshold ≤ calculate_similarity q pd.2) →
      ∃ p s, similarityBatchGo cfg meta q b acc = [mkResult meta p s (some true)] ∧
        cfg.early_stop_threshold ≤ s := by
  intro b
  induction b with
  | nil => intro acc h; simp at h
  | cons pd rest ih =>
    obtain ⟨p, ds⟩ := pd
    intro acc h
    by_cases he : cfg.early_stop_threshold ≤ calculate_similarity q ds
    · exact ⟨p, calculate_similarity q ds, by simp [similarityBatchGo, he], he⟩
    · have h2 : ∃ pd ∈ rest, cfg.early_stop_threshold ≤ calculate_similarity q pd.2 := by
        rcases h with ⟨pd2, hmem, hsc⟩
        rcases List.mem_cons.mp hmem with rfl | hmem2
        · exact absurd hsc he
        · exact ⟨pd2, hmem2, hsc⟩
      by_cases hm : cfg.min_threshold ≤ calculate_similarity q ds
      · simpa [similarityBatchGo, he, hm] using ih _ h2
      · simpa [similarityBatchGo, he, hm] using ih _ h2

theorem similarityBatchGo_flags (cfg : PerfConfig) (meta : List (String × Metadata))
    (q : List Desc) :
    ∀ (b : List (String × List Desc)) (acc : List SearchResult),
      (∀ pd ∈ b, ¬(cfg.early_stop_threshold ≤ calculate_similarity q pd.2)) →
      (∀ r ∈ acc, r.early_stopped = some false) →
      ∀ r ∈ similarityBatchGo cfg meta q b acc, r.early_stopped = some false := by
  intro b
  induction b with
  | nil => intro acc _ hacc; simpa [similarityBatchGo] using hacc
  | cons pd rest ih =>
    obtain ⟨p, ds⟩ := pd
    intro acc hb hacc
    have he : ¬(cfg.early_stop_threshold ≤ calculate_similarity q ds) :=
      hb (p, ds) (List.mem_cons_self _ _)
    have hbrest : ∀ pd ∈ rest, ¬(cfg.early_stop_threshold ≤ calculate_similarity q pd.2) :=
      fun pd hpd => hb pd (List.mem_cons_of_mem _ hpd)
    by_cases hm : cfg.min_threshold ≤ calculate_similarity q ds
    · have hacc2 : ∀ r ∈ acc ++ [mkResult meta p (calculate_similarity q ds) (some false)],
          r.early_stopped = some false := by
        intro r hr
        rcases List.mem_append.mp hr with hr1 | hr2
        · exact hacc r hr1
        · simp at hr2; simp [hr2]
      intro r hr
      refine ih _ hbrest hacc2 r ?_
      simpa [similarityBatchGo, he, hm] using hr
    · intro r hr
      refine ih _ hbrest hacc r ?_
      simpa [similarityBatchGo, he, hm] using hr

theorem parallelMerge_early (cfg : PerfConfig) (meta : List (String × Metadata))
    (q : List Desc) (top_k : Nat) :
    ∀ (completed : List (List (String × List Desc))) (acc : List SearchResult),
      (∃ b ∈ completed, ∃ pd ∈ b, cfg.early_stop_threshold ≤ calculate_similarity q pd.2) →
      ∃ p s, parallelMerge cfg meta q top_k completed acc = [mkResult meta p s (some true)] ∧
        cfg.early_stop_threshold ≤ s := by
  intro completed
  induction completed with
  | nil => intro acc h; simp at h
  | cons b rest ih =>
    intro acc h
    by_cases hb : ∃ pd ∈ b, cfg.early_stop_threshold ≤ calculate_similarity q pd.2
    · obtain ⟨p, s, hbeq, hs⟩ := similarityBatchGo_early cfg meta q b [] hb
      refine ⟨p, s, ?_, hs⟩
      simp [parallelMerge, similarityBatch, hbeq, List.find?]
    · have hb2 : ∀ pd ∈ b, ¬(cfg.early_stop_threshold ≤ calculate_similarity q pd.2) :=
        fun pd hpd hle => hb ⟨pd, hpd, hle⟩
      have hflags := similarityBatchGo_flags cfg meta q b [] hb2 (by simp)
      have hfind : (similarityBatch cfg meta q b).find?
          (fun r => r.early_stopped == some true) = none := by
        rw [List.find?_eq_none]
        intro x hx
        simp [hflags x hx]
      have h2 : ∃ b2 ∈ rest, ∃ pd ∈ b2,
          cfg.early_stop_threshold ≤ calculate_similarity q pd.2 := by
        rcases h with ⟨b2, hmem, hexb⟩
        rcases List.mem_cons.mp hmem with rfl | hmem2
        · exact absurd hexb hb
        · exact ⟨b2, hmem2, hexb⟩
      simpa [parallelMerge, hfind] using ih _ h2

theorem chunkGo_flatten (n : Nat) (hn : 0 < n) :
    ∀ (fuel : Nat) (l : List (String × List Desc)), l.length ≤ fuel →
      (chunkGo n fuel l).flatten = l := by
  intro fuel
  induction fuel with
  | zero =>
    intro l hl
    have : l = [] := List.length_eq_zero.mp (Nat.le_zero.mp hl)
    subst this
    simp [chunkGo]
  | succ k ih =>
    intro l hl
    cases l with
    | nil => simp [chunkGo]
    | cons x xs =>
      have hlen : (xs.drop (n - 1)).length ≤ k := by
        simp only [List.length_drop]
        simp only [List.length_cons] at hl
        omega
      rw [chunkGo]
      rw [List.flatten_cons, ih _ hlen]
      obtain ⟨m, rfl⟩ : ∃ m, n = m + 1 := ⟨n - 1, by omega⟩
      simp only [List.take_succ_cons, Nat.add_sub_cancel, List.cons_append,
        List.cons.injEq, true_and]
      exact List.take_append_drop m xs

theorem chunkList_join (n : Nat) (hn : 0 < n) :
    ∀ l : List (String × List Desc), (chunkList n l).flatten = l :=
  fun l => chunkGo_flatten n hn l.length l le_rfl

theorem mem_completed_of_mem_features {cfg : PerfConfig} {st : MatcherState}
    {order : List Nat} {pd : String × List Desc}
    (hbs : 0 < cfg.batch_size)
    (horder : order.Perm
      (List.range (chunkList cfg.batch_size.toNat st.database_features).length))
    (hmem : pd ∈ st.database_features) :
    ∃ b ∈ order.filterMap
      (fun i => (chunkList cfg.batch_size.toNat st.database_features).get? i), pd ∈ b := by
  have hn : 0 < cfg.batch_size.toNat := by omega
  have hjoin := chunkList_join cfg.batch_size.toNat hn st.database_features
  rw [← hjoin] at hmem
  obtain ⟨b, hb, hpd⟩ := List.mem_flatten.mp hmem
  obtain ⟨⟨i, hi⟩, hget⟩ := List.mem_iff_get.mp hb
  refine ⟨b, ?_, hpd⟩
  refine List.mem_filterMap.mpr ⟨i, ?_, ?_⟩
  · exact horder.mem_iff.mpr (List.mem_range.mpr hi)
  · rw [List.get?_eq_get hi, hget]

/-- C1: whenever some stored image scores at least `early_stop_threshold`
against the query, the sequential strategy and the parallel strategy (under
every batch completion order) each return exactly one result, and that
result's score is at least the threshold — no other candidate appears. -/
theorem claim_C1_early_stop_single_result (cfg : PerfConfig) (st : MatcherState)
    (q : List Desc) (top_k : Nat) (order : List Nat)
    (hbs : 0 < cfg.batch_size)
    (hex : ∃ pd ∈ st.database_features,
      cfg.early_stop_threshold ≤ calculate_similarity q pd.2)
    (horder : order.Perm
      (List.range (chunkList cfg.batch_size.toNat st.database_features).length)) :
    ((searchSequential cfg st q top_k).length = 1 ∧
      ∀ r ∈ searchSequential cfg st q top_k,
        cfg.early_stop_threshold ≤ r.similarity_score) ∧
    ((searchParallel cfg st q top_k order).length = 1 ∧
      ∀ r ∈ searchParallel cfg st q top_k order,
        cfg.early_stop_threshold ≤ r.similarity_score) := by
  constructor
  · obtain ⟨p, s, heq, hs⟩ :=
      searchSequentialGo_early cfg st.database_metadata q top_k st.database_features [] hex
    unfold searchSequential
    rw [heq]
    refine ⟨rfl, ?_⟩
    intro r hr
    simp only [List.mem_singleton] at hr
    subst hr
    simpa using hs
  · obtain ⟨pd, hpd, hsc⟩ := hex
    obtain ⟨b, hb, hpdb⟩ := mem_completed_of_mem_features hbs horder hpd
    obtain ⟨p, s, heq, hs⟩ :=
      parallelMerge_early cfg st.database_metadata q top_k _ [] ⟨b, hb, pd, hpdb, hsc⟩
    unfold searchParallel
    rw [heq]
    refine ⟨rfl, ?_⟩
    intro r hr
    simp only [List.mem_singleton] at hr
    subst hr
    simpa using hs

/-- A store with two images that both score `0.95 ≥ 0.9` against the query
`[[true]]` — the synthetic two-images-above-threshold scenario. -/
def c1Store : MatcherState :=
  ⟨[("a.jpg", [[true]]), ("b.jpg", [[true]])], []⟩

/-- Default tunables with `early_stop_threshold` lowered to `0.9`. -/
def c1Cfg : PerfConfig := { defaultConfig with early_stop_threshold := 9/10 }

unseal Rat.add Rat.mul Rat.inv Rat.sub in
theorem claim_C1_early_stop_single_result_w :
    ((searchSequential c1Cfg c1Store [[true]] 5).length = 1 ∧
      ∀ r ∈ searchSequential c1Cfg c1Store [[true]] 5,
        c1Cfg.early_stop_threshold ≤ r.similarity_score) ∧
    ((searchParallel c1Cfg c1Store [[true]] 5 [0]).length = 1 ∧
      ∀ r ∈ searchParallel c1Cfg c1Store [[true]] 5 [0],
        c1Cfg.early_stop_threshold ≤ r.similarity_score) :=
  claim_C1_early_stop_single_result c1Cfg c1Store [[true]] 5 [0]
    (by decide) (by decide) (by decide)

/-! ### C6 — the `/performance/config` update endpoint

`update_performance_config` processes its optional parameters in source
order; each out-of-range value raises an `HTTPException` at once.  Crucially
the fields processed before the failing one have already been assigned on the
matcher, so a rejection is not atomic.  The model returns the final field
state together with the optional rejection detail. -/

/-- The optional query parameters of `POST /performance/config`. -/
structure ConfigRequest where
  early_stop_threshold : Option ℚ := none
  min_threshold : Option ℚ := none
  max_workers : Option Int := none
  use_parallel_search : Option Bool := none
  batch_size : Option Int := none
  use_annoy : Option Bool := none
  annoy_search_k : Option Int := none
deriving DecidableEq, Repr

def applyEarlyStop (c : PerfConfig) (r : ConfigRequest) :
    Except (PerfConfig × String) PerfConfig :=
  match r.early_stop_threshold with
  | none => .ok c
  | some v =>
    if 1/10 ≤ v ∧ v ≤ 1 then .ok { c with early_stop_threshold := v }
    else .error (c, "early_stop_threshold deve estar entre 0.1 e 1.0")

def applyMinThreshold (c : PerfConfig) (r : ConfigRequest) :
    Except (PerfConfig × String) PerfConfig :=
  match r.min_threshold with
  | none => .ok c
  | some v =>
    if 0 ≤ v ∧ v ≤ 1 then .ok { c with min_threshold := v }
    else .error (c, "min_threshold deve estar entre 0.0 e 1.0")

def applyMaxWorkers (c : PerfConfig) (r : ConfigRequest) :
    Except (PerfConfig × String) PerfConfig :=
  match r.max_workers with
  | none => .ok c
  | some v =>
    if 1 ≤ v ∧ v ≤ 16 then .ok { c with max_workers := v }
    else .error (c, "max_workers deve estar entre 1 e 16")

def applyUseParallel (c : PerfConfig) (r : ConfigRequest) :
    Except (PerfConfig × String) PerfConfig :=
  match r.use_parallel_search with
  | none => .ok c
  | some v => .ok { c with use_parallel_search := v }

def applyBatchSize (c : PerfConfig) (r : ConfigRequest) :
    Except (PerfConfig × String) PerfConfig :=
  match r.batch_size with
  | none => .ok c
  | some v =>
    if 10 ≤ v ∧ v ≤ 200 then .ok { c with batch_size := v }
    else .error (c, "batch_size deve estar entre 10 e 200")

def applyUseAnnoy (c : PerfConfig) (r : ConfigRequest) :
    Except (PerfConfig × String) PerfConfig :=
  match r.use_annoy with
  | none => .ok c
  | some v => .ok { c with use_annoy := v }

def applyAnnoySearchK (c : PerfConfig) (r : ConfigRequest) :
    Except (PerfConfig × String) PerfConfig :=
  match r.annoy_search_k with
  | none => .ok c
  | some v =>
    if 10 ≤ v ∧ v ≤ 1000 then .ok { c with annoy_search_k := v }
    else .error (c, "annoy_search_k deve estar entre 10 e 1000")

/-- The field-by-field body of `update_performance_config`, stopping (with the
state reached so far) at the first out-of-range parameter. -/
def updateConfigE (cfg : PerfConfig) (r : ConfigRequest) :
    Except (PerfConfig × String) PerfConfig :=
  applyEarlyStop cfg r >>= fun c1 =>
  applyMinThreshold c1 r >>= fun c2 =>
  applyMaxWorkers c2 r >>= fun c3 =>
  applyUseParallel c3 r >>= fun c4 =>
  applyBatchSize c4 r >>= fun c5 =>
  applyUseAnnoy c5 r >>= fun c6 =>
  applyAnnoySearchK c6 r

/-- `update_performance_config`: the configuration state after the request,
and the `HTTPException` detail when the request is rejected. -/
def update_performance_config (cfg : PerfConfig) (r : ConfigRequest) :
    PerfConfig × Option String :=
  match updateConfigE cfg r with
  | .ok c => (c, none)
  | .error (c, e) => (c, some e)

/-- The order-free merge of a request into a configuration: every supplied
field replaces its counterpart, everything else is untouched. -/
def mergeConfig (cfg : PerfConfig) (r : ConfigRequest) : PerfConfig :=
  { early_stop_threshold := r.early_stop_threshold.getD cfg.early_stop_threshold
    min_threshold := r.min_threshold.getD cfg.min_threshold
    max_workers := r.max_workers.getD cfg.max_workers
    use_parallel_search := r.use_parallel_search.getD cfg.use_parallel_search
    batch_size := r.batch_size.getD cfg.batch_size
    use_annoy := r.use_annoy.getD cfg.use_annoy
    annoy_search_k := r.annoy_search_k.getD cfg.annoy_search_k }

unseal Rat.add Rat.mul Rat.inv Rat.sub in
theorem claim_C6_config_update_counterexample :
    (update_performance_config defaultConfig
      { early_stop_threshold := some (1/2), min_threshold := some 2 }).2.isSome ∧
    (update_performance_config defaultConfig
      { early_stop_threshold := some (1/2), min_threshold := some 2 }).1.early_stop_threshold
      ≠ defaultConfig.early_stop_threshold := by
  constructor <;> decide

theorem applyEarlyStop_ok {c : PerfConfig} {r : ConfigRequest} {c2 : PerfConfig}
    (h : applyEarlyStop c r = .ok c2) :
    c2 = { c with early_stop_threshold :=
      r.early_stop_threshold.getD c.early_stop_threshold } := by
  unfold applyEarlyStop at h
  cases hr : r.early_stop_threshold with
  | none => rw [hr] at h; dsimp only at h; injection h with h; subst h; simp [hr]
  | some v =>
    rw [hr] at h
    dsimp only at h
    split_ifs at h
    injection h with h
    subst h
    simp [hr]

theorem applyMinThreshold_ok {c : PerfConfig} {r : ConfigRequest} {c2 : PerfConfig}
    (h : applyMinThreshold c r = .ok c2) :
    c2 = { c with min_threshold := r.min_threshold.getD c.min_threshold } := by
  unfold applyMinThreshold at h
  cases hr : r.min_threshold with
  | none => rw [hr] at h; dsimp only at h; injection h with h; subst h; simp [hr]
  | some v =>
    rw [hr] at h
    dsimp only at h
    split_ifs at h
    injection h with h
    subst h
    simp [hr]

theorem applyMaxWorkers_ok {c : PerfConfig} {r : ConfigRequest} {c2 : PerfConfig}
    (h : applyMaxWorkers c r = .ok c2) :
    c2 = { c with max_workers := r.max_workers.getD c.max_workers } := by
  unfold applyMaxWorkers at h
  cases hr : r.max_workers with
  | none => rw [hr] at h; dsimp only at h; injection h with h; subst h; simp [hr]
  | some v =>
    rw [hr] at h
    dsimp only at h
    split_ifs at h
    injection h with h
    subst h
    simp [hr]

theorem applyUseParallel_ok {c : PerfConfig} {r : ConfigRequest} {c2 : PerfConfig}
    (h : applyUseParallel c r = .ok c2) :
    c2 = { c with use_parallel_search :=
      r.use_parallel_search.getD c.use_parallel_search } := by
  unfold applyUseParallel at h
  cases hr : r.use_parallel_search with
  | none => rw [hr] at h; dsimp only at h; injection h with h; subst h; simp [hr]
  | some v => rw [hr] at h; dsimp only at h; injection h with h; subst h; simp [hr]

theorem applyBatchSize_ok {c : PerfConfig} {r : ConfigRequest} {c2 : PerfConfig}
    (h : applyBatchSize c r = .ok c2) :
    c2 = { c with batch_size := r.batch_size.getD c.batch_size } := by
  unfold applyBatchSize at h
  cases hr : r.batch_size with
  | none => rw [hr] at h; dsimp only at h; injection h with h; subst h; simp [hr]
  | some v =>
    rw [hr] at h
    dsimp only at h
    split_ifs at h
    injection h with h
    subst h
    simp [hr]

theorem applyUseAnnoy_ok {c : PerfConfig} {r : ConfigRequest} {c2 : PerfConfig}
    (h : applyUseAnnoy c r = .ok c2) :
    c2 = { c with use_annoy := r.use_annoy.getD c.use_annoy } := by
  unfold applyUseAnnoy at h
  cases hr : r.use_annoy with
  | none => rw [hr] at h; dsimp only at h; injection h with h; subst h; simp [hr]
  | some v => rw [hr] at h; dsimp only at h; injection h with h; subst h; simp [hr]

theorem applyAnnoySearchK_ok {c : PerfConfig} {r : ConfigRequest} {c2 : PerfConfig}
    (h : applyAnnoySearchK c r = .ok c2) :
    c2 = { c with annoy_search_k := r.annoy_search_k.getD c.annoy_search_k } := by
  unfold applyAnnoySearchK at h
  cases hr : r.annoy_search_k with
  | none => rw [hr] at h; dsimp only at h; injection h with h; subst h; simp [hr]
  | some v =>
    rw [hr] at h
    dsimp only at h
    split_ifs at h
    injection h with h
    subst h
    simp [hr]

theorem updateConfigE_ok {cfg : PerfConfig} {r : ConfigRequest} {c : PerfConfig}
    (h : updateConfigE cfg r = .ok c) : c = mergeConfig cfg r := by
  unfold updateConfigE at h
  cases h1 : applyEarlyStop cfg r with
  | error e => rw [h1] at h; simp [Bind.bind, Except.bind] at h
  | ok c1 =>
  rw [h1] at h
  simp only [Bind.bind, Except.bind] at h
  cases h2 : applyMinThreshold c1 r with
  | error e => rw [h2] at h; simp at h
  | ok c2 =>
  rw [h2] at h
  simp only at h
  cases h3 : applyMaxWorkers c2 r with
  | error e => rw [h3] at h; simp at h
  | ok c3 =>
  rw [h3] at h
  simp only at h
  cases h4 : applyUseParallel c3 r with
  | error e => rw [h4] at h; simp at h
  | ok c4 =>
  rw [h4] at h
  simp only at h
  cases h5 : applyBatchSize c4 r with
  | error e => rw [h5] at h; simp at h
  | ok c5 =>
  rw [h5] at h
  simp only at h
  cases h6 : applyUseAnnoy c5 r with
  | error e => rw [h6] at h; simp at h
  | ok c6 =>
  rw [h6] at h
  simp only at h
  have e1 := applyEarlyStop_ok h1
  have e2 := applyMinThreshold_ok h2
  have e3 := applyMaxWorkers_ok h3
  have e4 := applyUseParallel_ok h4
  have e5 := applyBatchSize_ok h5
  have e6 := applyUseAnnoy_ok h6
  have e7 := applyAnnoySearchK_ok h
  subst e1 e2 e3 e4 e5 e6
  rw [e7]
  rfl

/-- C6 (amended): a fully valid request updates exactly the supplied fields;
a request whose only supplied field is an out-of-range `min_threshold` is
rejected with the whole configuration unchanged; but rejection is not atomic —
a request supplying a valid `early_stop_threshold` together with an
out-of-range `min_threshold` is rejected after `early_stop_threshold` has
already been updated. -/
theorem claim_C6_config_update_amended :
    (∀ (cfg : PerfConfig) (r : ConfigRequest),
      (update_performance_config cfg r).2 = none →
      (update_performance_config cfg r).1 = mergeConfig cfg r) ∧
    (∀ (cfg : PerfConfig) (w : ℚ), ¬(0 ≤ w ∧ w ≤ 1) →
      update_performance_config cfg { min_threshold := some w } =
        (cfg, some "min_threshold deve estar entre 0.0 e 1.0")) ∧
    (∀ (cfg : PerfConfig) (v w : ℚ), 1/10 ≤ v → v ≤ 1 → ¬(0 ≤ w ∧ w ≤ 1) →
      update_performance_config cfg
          { early_stop_threshold := some v, min_threshold := some w } =
        ({ cfg with early_stop_threshold := v },
          some "min_threshold deve estar entre 0.0 e 1.0")) := by
  refine ⟨?_, ?_, ?_⟩
  · intro cfg r h
    unfold update_performance_config at h ⊢
    cases he : updateConfigE cfg r with
    | error e => rw [he] at h; simp at h
    | ok c => simpa using updateConfigE_ok he
  · intro cfg w hw
    simp [update_performance_config, updateConfigE, applyEarlyStop, applyMinThreshold,
      hw, Bind.bind, Except.bind]
  · intro cfg v w hv1 hv2 hw
    have hv1i : (10:ℚ)⁻¹ ≤ v := by rw [← one_div]; exact hv1
    simp [update_performance_config, updateConfigE, applyEarlyStop, applyMinThreshold,
      hv1, hv1i, hv2, hw, Bind.bind, Except.bind]

unseal Rat.add Rat.mul Rat.inv Rat.sub in
theorem claim_C6_config_update_amended_w :
    update_performance_config defaultConfig
        { early_stop_threshold := some (1/2), min_threshold := some 2 } =
      ({ defaultConfig with early_stop_threshold := 1/2 },
        some "min_threshold deve estar entre 0.0 e 1.0") :=
  claim_C6_config_update_amended.2.2 defaultConfig (1/2) 2
    (by norm_num) (by norm_num) (by norm_num)

/-! ### C7 — `process_database_images` (collection rebuild)

The walk over the collection directory is an input: each file entry carries
the extraction outcome (`failed` models a raised exception while loading or
processing; an empty descriptor list models `descriptors is None or
len == 0`).  The code raises before any mutation when the directory is
missing; otherwise it assigns `self.database_features[relative_path] = …`
per image — an in-place dict upsert, with no prior clearing — and reports
success even when zero images were processed.  The returned flag records
whether the Annoy index was rebuilt (`use_annoy and processed_count > 0`). -/

/-- One file encountered by the `os.walk` loop. -/
structure FileEntry where
  relPath : String
  filename : String
  fullPath : String
  descs : List Desc
  shape : List Nat
  failed : Bool
deriving DecidableEq, Repr

/-- `d[k] = v` on a Python dict: replaces in place, else appends. -/
def upsert {α : Type} : List (String × α) → String → α → List (String × α)
  | [], k, v => [(k, v)]
  | (k2, v2) :: rest, k, v =>
    if k2 = k then (k, v) :: rest else (k2, v2) :: upsert rest k v

/-- `descriptors is not None and len(descriptors) > 0` and no exception. -/
def fileProcessed (e : FileEntry) : Bool := !e.failed && !e.descs.isEmpty

/-- The per-file body of the processing loop. -/
def processStep (s : MatcherState) (e : FileEntry) : MatcherState :=
  if fileProcessed e then
    { database_features := upsert s.database_features e.relPath e.descs
      database_metadata := upsert s.database_metadata e.relPath
        ⟨e.filename, e.fullPath, e.descs.length, .tup e.shape⟩ }
  else s

/-- `process_database_images`: errors out on a missing collection directory
(before touching any state), else upserts every processed image into the
existing store and reports whether the Annoy index was rebuilt. -/
def process_database_images (dirExists : Bool) (walk : List FileEntry)
    (st : MatcherState) (use_annoy : Bool) : Except String (MatcherState × Bool) :=
  if dirExists = false then .error "Diretório do banco não encontrado"
  else
    let st2 := walk.foldl processStep st
    .ok (st2, use_annoy && decide (0 < walk.countP fileProcessed))

/-- A pre-existing store with one image from the previous build. -/
def c7Store : MatcherState :=
  ⟨[("old.jpg", [[true]])],
   [("old.jpg", ⟨"old.jpg", "image_data/old.jpg", 1, .tup [1, 1, 3]⟩)]⟩

/-- A walk finding a single fresh image. -/
def c7New : FileEntry :=
  ⟨"new.jpg", "new.jpg", "image_data/new.jpg", [[false]], [1, 1, 3], false⟩

theorem claim_C7_rebuild_counterexample :
    process_database_images true [] c7Store true = .ok (c7Store, false) ∧
    process_database_images true [c7New] c7Store true =
      .ok (⟨[("old.jpg", [[true]]), ("new.jpg", [[false]])],
            [("old.jpg", ⟨"old.jpg", "image_data/old.jpg", 1, .tup [1, 1, 3]⟩),
             ("new.jpg", ⟨"new.jpg", "image_data/new.jpg", 1, .tup [1, 1, 3]⟩)]⟩,
           true) := by
  constructor <;> rfl

theorem upsert_lookup_ne {α : Type} (l : List (String × α)) (k k2 : String)
    (v : α) (h : k2 ≠ k) : List.lookup k2 (upsert l k v) = List.lookup k2 l := by
  induction l with
  | nil =>
    have : (k2 == k) = false := by simpa using h
    simp [upsert, List.lookup, this]
  | cons p rest ih =>
    obtain ⟨k3, v3⟩ := p
    by_cases hk : k3 = k
    · subst hk
      simp only [upsert, if_pos rfl, List.lookup]
      have : (k2 == k3) = false := by simpa using h
      rw [this]
    · simp only [upsert, if_neg hk, List.lookup]
      cases hbe : k2 == k3 with
      | true => rfl
      | false => exact ih

theorem foldl_processStep_lookup (k : String) :
    ∀ (walk : List FileEntry) (st : MatcherState),
      (∀ e ∈ walk, fileProcessed e → e.relPath ≠ k) →
      List.lookup k (walk.foldl processStep st).database_features =
        List.lookup k st.database_features ∧
      List.lookup k (walk.foldl processStep st).database_metadata =
        List.lookup k st.database_metadata := by
  intro walk
  induction walk with
  | nil => intro st _; exact ⟨rfl, rfl⟩
  | cons e rest ih =>
    intro st hw
    rw [List.foldl_cons]
    have hrest : ∀ e2 ∈ rest, fileProcessed e2 → e2.relPath ≠ k :=
      fun e2 he2 => hw e2 (List.mem_cons_of_mem _ he2)
    obtain ⟨h1, h2⟩ := ih (processStep st e) hrest
    rw [h1, h2]
    by_cases hp : fileProcessed e
    · have hne : k ≠ e.relPath := fun hk => hw e (List.mem_cons_self _ _) hp hk.symm
      constructor
      · simp only [processStep, if_pos hp]
        exact upsert_lookup_ne _ _ _ _ hne
      · simp only [processStep, if_pos hp]
        exact upsert_lookup_ne _ _ _ _ hne
    · simp [processStep, hp]

theorem foldl_processStep_id :
    ∀ (walk : List FileEntry) (st : MatcherState), walk.countP fileProcessed = 0 →
      walk.foldl processStep st = st := by
  intro walk
  induction walk with
  | nil => intro st _; rfl
  | cons e rest ih =>
    intro st hc
    rw [List.countP_cons] at hc
    have hp : fileProcessed e = false := by
      by_contra h
      simp only [Bool.not_eq_false] at h
      simp [h] at hc
    rw [List.foldl_cons]
    have : processStep st e = st := by simp [processStep, hp]
    rw [this]
    exact ih st (by omega)

/-- C7 (amended): a rebuild over a missing collection directory fails before
touching any state; a rebuild that processes zero images succeeds (it is not
surfaced as a failure), leaves the store exactly as it was and does not
rebuild the Annoy index; and in general a rebuild upserts processed images
into the existing store in place, so every key not re-encountered keeps its
previous descriptors and metadata — there is no atomic whole-store
replacement.  The Annoy index is rebuilt exactly when Annoy is enabled and at
least one image was processed. -/
theorem claim_C7_rebuild_amended :
    (∀ (walk : List FileEntry) (st : MatcherState) (ua : Bool),
      process_database_images false walk st ua =
        .error "Diretório do banco não encontrado") ∧
    (∀ (walk : List FileEntry) (st : MatcherState) (ua : Bool),
      walk.countP fileProcessed = 0 →
      process_database_images true walk st ua = .ok (st, false)) ∧
    (∀ (walk : List FileEntry) (st : MatcherState) (ua : Bool)
      (st2 : MatcherState) (rebuilt : Bool),
      process_database_images true walk st ua = .ok (st2, rebuilt) →
      rebuilt = (ua && decide (0 < walk.countP fileProcessed)) ∧
      ∀ k, (∀ e ∈ walk, fileProcessed e → e.relPath ≠ k) →
        List.lookup k st2.database_features = List.lookup k st.database_features ∧
        List.lookup k st2.database_metadata = List.lookup k st.database_metadata) := by
  refine ⟨fun _ _ _ => rfl, ?_, ?_⟩
  · intro walk st ua hc
    simp only [process_database_images, if_neg (by simp : ¬(true = false))]
    rw [foldl_processStep_id walk st hc, hc]
    simp
  · intro walk st ua st2 rebuilt h
    simp only [process_database_images, if_neg (by simp : ¬(true = false)),
      Except.ok.injEq, Prod.mk.injEq] at h
    obtain ⟨hst, hflag⟩ := h
    subst hst
    refine ⟨hflag.symm, ?_⟩
    intro k hk
    exact foldl_processStep_lookup k walk st hk

theorem claim_C7_rebuild_amended_w :
    process_database_images true [] c7Store true = .ok (c7Store, false) :=
  claim_C7_rebuild_amended.2.1 [] c7Store true (by decide)

/-! ### C4 — the two-phase hybrid search -/

theorem annTopCandidates_length (p1 : List (String × AnnScores)) :
    (annTopCandidates p1).length = min 100 p1.length := by
  unfold annTopCandidates
  rw [List.length_take, List.length_map,
    (List.perm_insertionSort _ p1).length_eq]
  omega

/-- Every result produced by Phase 2 over some candidate list drawn from
`top` carries the blended score of its image and names a stored image. -/
theorem annPhase2_sound (cfg : PerfConfig) (st : MatcherState) (q : List Desc)
    (top_k : Nat) (p1 : List (String × AnnScores)) (top : List String) :
    ∀ (cands : List String) (acc : List SearchResult),
      (∀ c ∈ cands, c ∈ top) →
      (∀ r ∈ acc, r.image_path ∈ top ∧ ∃ db v,
        List.lookup r.image_path st.database_features = some db ∧
        List.lookup r.image_path p1 = some v ∧
        r.similarity_score = hybridScore (calculate_similarity q db) (annAvg v)) →
      ∀ r ∈ annPhase2 cfg st q top_k p1 cands acc,
        r.image_path ∈ top ∧ ∃ db v,
          List.lookup r.image_path st.database_features = some db ∧
          List.lookup r.image_path p1 = some v ∧
          r.similarity_score = hybridScore (calculate_similarity q db) (annAvg v) := by
  intro cands
  induction cands with
  | nil =>
    intro acc hc hacc r hr
    simp only [annPhase2] at hr
    exact hacc r ((List.perm_insertionSort _ acc).subset (List.mem_of_mem_take hr))
  | cons path rest ih =>
    intro acc hc hacc r hr
    have hcrest : ∀ c ∈ rest, c ∈ top := fun c h => hc c (List.mem_cons_of_mem _ h)
    cases hdb : List.lookup path st.database_features with
    | none =>
      rw [annPhase2, hdb] at hr
      exact ih _ hcrest hacc r hr
    | some db =>
      cases hv : List.lookup path p1 with
      | none =>
        rw [annPhase2, hdb, hv] at hr
        exact ih _ hcrest hacc r hr
      | some v =>
        by_cases hm : cfg.min_threshold ≤ hybridScore (calculate_similarity q db) (annAvg v)
        · by_cases he : cfg.early_stop_threshold ≤
              hybridScore (calculate_similarity q db) (annAvg v)
          · rw [annPhase2, hdb, hv] at hr
            simp only [if_pos hm, if_pos he, List.mem_singleton] at hr
            subst hr
            exact ⟨hc path (List.mem_cons_self _ _), db, v, hdb, hv, rfl⟩
          · rw [annPhase2, hdb, hv] at hr
            simp only [if_pos hm, if_neg he] at hr
            refine ih _ hcrest ?_ r hr
            intro r2 hr2
            rcases List.mem_append.mp hr2 with h1 | h2
            · exact hacc r2 h1
            · rw [List.mem_singleton] at h2
              subst h2
              exact ⟨hc path (List.mem_cons_self _ _), db, v, hdb, hv, rfl⟩
        · rw [annPhase2, hdb, hv] at hr
          simp only [if_neg hm] at hr
          exact ih _ hcrest hacc r hr

/-- C4: Phase 1 of the hybrid strategy pools candidates with breadth
`min(3·annoy_search_k, 300)`; Phase 2 rescores only the top
`min(100, number of candidate images)` candidates ranked by best
single-descriptor approximate score; and every reported candidate's score is
`0.7·exact ORB score + 0.3·mean of its approximate scores`. -/
theorem claim_C4_hybrid_two_phase (cfg : PerfConfig) (idx : AnnIdx)
    (idToImage : List (Nat × String)) (st : MatcherState) (q : List Desc)
    (top_k : Nat) :
    (annTopCandidates (annPhase1 idx idToImage q
        (min (cfg.annoy_search_k * 3) 300).toNat)).length =
      min 100 (annPhase1 idx idToImage q
        (min (cfg.annoy_search_k * 3) 300).toNat).length ∧
    ∀ r ∈ searchWithAnnoy cfg (some idx) idToImage st q top_k,
      r.image_path ∈ annTopCandidates (annPhase1 idx idToImage q
        (min (cfg.annoy_search_k * 3) 300).toNat) ∧
      ∃ db v, List.lookup r.image_path st.database_features = some db ∧
        List.lookup r.image_path (annPhase1 idx idToImage q
          (min (cfg.annoy_search_k * 3) 300).toNat) = some v ∧
        r.similarity_score =
          calculate_similarity q db * (7/10) + annAvg v * (3/10) := by
  constructor
  · exact annTopCandidates_length _
  · intro r hr
    have := annPhase2_sound cfg st q top_k
      (annPhase1 idx idToImage q (min (cfg.annoy_search_k * 3) 300).toNat)
      (annTopCandidates (annPhase1 idx idToImage q
        (min (cfg.annoy_search_k * 3) 300).toNat))
      (annTopCandidates (annPhase1 idx idToImage q
        (min (cfg.annoy_search_k * 3) 300).toNat))
      [] (fun c h => h) (by simp) r (by simpa [searchWithAnnoy, searchKExpandedOf] using hr)
    exact this

def c4Idx : AnnIdx := ⟨fun _ _ => [(0, 0)]⟩

def c4Store : MatcherState := ⟨[("a.jpg", [[true]])], []⟩

unseal Rat.add Rat.mul Rat.inv Rat.sub in
theorem claim_C4_hybrid_two_phase_w :
    (annTopCandidates (annPhase1 c4Idx [(0, "a.jpg")] [[true]]
        (min (defaultConfig.annoy_search_k * 3) 300).toNat)).length =
      min 100 (annPhase1 c4Idx [(0, "a.jpg")] [[true]]
        (min (defaultConfig.annoy_search_k * 3) 300).toNat).length ∧
    ((mkResult [] "a.jpg" (193/200) none).image_path ∈
        annTopCandidates (annPhase1 c4Idx [(0, "a.jpg")] [[true]]
          (min (defaultConfig.annoy_search_k * 3) 300).toNat) ∧
      ∃ db v, List.lookup (mkResult [] "a.jpg" (193/200) none).image_path
          c4Store.database_features = some db ∧
        List.lookup (mkResult [] "a.jpg" (193/200) none).image_path
          (annPhase1 c4Idx [(0, "a.jpg")] [[true]]
            (min (defaultConfig.annoy_search_k * 3) 300).toNat) = some v ∧
        (mkResult [] "a.jpg" (193/200) none).similarity_score =
          calculate_similarity [[true]] db * (7/10) + annAvg v * (3/10)) :=
  ⟨(claim_C4_hybrid_two_phase defaultConfig c4Idx [(0, "a.jpg")] c4Store [[true]] 5).1,
   (claim_C4_hybrid_two_phase defaultConfig c4Idx [(0, "a.jpg")] c4Store [[true]] 5).2
     (mkResult [] "a.jpg" (193/200) none) (by decide)⟩

/-! ### C5 — determinism of the parallel strategy

Absent an early stop, each batch contributes exactly the candidates that
reach `min_threshold`, in store order within the batch; the `as_completed`
loop concatenates batch outputs in completion order and then sorts them with
Python's stable sort.  The sorted output is therefore determined up to the
order of equal-score candidates, which follows completion order — not the
first-seen input order the specification promises. -/

/-- The candidates of `l` that reach `min_threshold` (no early stop assumed),
in input order — the canonical retained-candidate list. -/
def qualifying (cfg : PerfConfig) (meta : List (String × Metadata)) (q : List Desc)
    (l : List (String × List Desc)) : List SearchResult :=
  l.filterMap (fun pd =>
    if cfg.min_threshold ≤ calculate_similarity q pd.2 then
      some (mkResult meta pd.1 (calculate_similarity q pd.2) (some false))
    else none)

theorem similarityBatchGo_no_early (cfg : PerfConfig)
    (meta : List (String × Metadata)) (q : List Desc) :
    ∀ (b : List (String × List Desc)) (acc : List SearchResult),
      (∀ pd ∈ b, calculate_similarity q pd.2 < cfg.early_stop_threshold) →
      similarityBatchGo cfg meta q b acc = acc ++ qualifying cfg meta q b := by
  intro b
  induction b with
  | nil => intro acc _; simp [similarityBatchGo, qualifying]
  | cons pd rest ih =>
    obtain ⟨p, ds⟩ := pd
    intro acc hb
    have he : ¬(cfg.early_stop_threshold ≤ calculate_similarity q ds) :=
      not_le.mpr (hb (p, ds) (List.mem_cons_self _ _))
    have hrest : ∀ pd ∈ rest, calculate_similarity q pd.2 < cfg.early_stop_threshold :=
      fun pd hpd => hb pd (List.mem_cons_of_mem _ hpd)
    by_cases hm : cfg.min_threshold ≤ calculate_similarity q ds
    · rw [similarityBatchGo]
      simp only [if_neg he, if_pos hm]
      rw [ih _ hrest]
      simp only [qualifying, List.filterMap_cons, if_pos hm]
      simp [List.append_assoc]
    · rw [similarityBatchGo]
      simp only [if_neg he, if_neg hm]
      rw [ih _ hrest]
      simp only [qualifying, List.filterMap_cons, if_neg hm]

theorem qualifying_flags (cfg : PerfConfig) (meta : List (String × Metadata))
    (q : List Desc) (l : List (String × List Desc)) :
    ∀ r ∈ qualifying cfg meta q l, r.early_stopped = some false := by
  intro r hr
  obtain ⟨pd, _, hf⟩ := List.mem_filterMap.mp hr
  by_cases hm : cfg.min_threshold ≤ calculate_similarity q pd.2
  · rw [if_pos hm] at hf
    injection hf with hf
    subst hf
    rfl
  · rw [if_neg hm] at hf
    exact absurd hf (by simp)

theorem parallelMerge_no_early (cfg : PerfConfig) (meta : List (String × Metadata))
    (q : List Desc) (top_k : Nat) :
    ∀ (completed : List (List (String × List Desc))) (acc : List SearchResult),
      (∀ b ∈ completed, ∀ pd ∈ b,
        calculate_similarity q pd.2 < cfg.early_stop_threshold) →
      parallelMerge cfg meta q top_k completed acc =
        (sortResultsDesc (acc ++ (completed.map (qualifying cfg meta q)).flatten)).take
          top_k := by
  intro completed
  induction completed with
  | nil => intro acc _; simp [parallelMerge]
  | cons b rest ih =>
    intro acc hc
    have hb : ∀ pd ∈ b, calculate_similarity q pd.2 < cfg.early_stop_threshold :=
      hc b (List.mem_cons_self _ _)
    have hbatch : similarityBatch cfg meta q b = qualifying cfg meta q b := by
      unfold similarityBatch
      rw [similarityBatchGo_no_early cfg meta q b [] hb]
      rfl
    have hfind : (similarityBatch cfg meta q b).find?
        (fun r => r.early_stopped == some true) = none := by
      rw [List.find?_eq_none]
      intro x hx
      rw [hbatch] at hx
      simp [qualifying_flags cfg meta q b x hx]
    have hfind2 : (qualifying cfg meta q b).find?
        (fun r => r.early_stopped == some true) = none := by
      rw [← hbatch]; exact hfind
    rw [parallelMerge]
    simp only [hbatch, hfind2]
    rw [ih _ (fun b2 h2 => hc b2 (List.mem_cons_of_mem _ h2))]
    simp [List.append_assoc]

theorem filterMap_congr_mem {α β : Type} {l : List α} {f g : α → Option β}
    (h : ∀ x ∈ l, f x = g x) : l.filterMap f = l.filterMap g := by
  induction l with
  | nil => rfl
  | cons a rest ih =>
    rw [List.filterMap_cons, List.filterMap_cons,
      h a (List.mem_cons_self _ _), ih (fun x hx => h x (List.mem_cons_of_mem _ hx))]

theorem range_filterMap_get {α : Type} : ∀ l : List α,
    (List.range l.length).filterMap (fun i => l.get? i) = l := by
  intro l
  induction l using List.reverseRecOn with
  | nil => simp
  | append_singleton l a ih =>
    rw [List.length_append, List.length_singleton, List.range_succ,
      List.filterMap_append]
    have h1 : (List.range l.length).filterMap (fun i => (l ++ [a]).get? i) =
        (List.range l.length).filterMap (fun i => l.get? i) := by
      refine filterMap_congr_mem ?_
      intro i hi
      exact List.get?_append (List.mem_range.mp hi)
    rw [h1, ih]
    simp [List.get?_concat_length]

theorem completed_perm_batches (batches : List (List (String × List Desc)))
    (order : List Nat) (h : order.Perm (List.range batches.length)) :
    (order.filterMap (fun i => batches.get? i)).Perm batches := by
  have := List.Perm.filterMap (fun i => batches.get? i) h
  rw [range_filterMap_get batches] at this
  exact this

instance : IsTotal SearchResult
    (fun a b => b.similarity_score ≤ a.similarity_score) :=
  ⟨fun a b => le_total b.similarity_score a.similarity_score⟩

instance : IsTrans SearchResult
    (fun a b => b.similarity_score ≤ a.similarity_score) :=
  ⟨fun _ _ _ h1 h2 => le_trans h2 h1⟩

theorem sortResultsDesc_sorted (l : List SearchResult) :
    (sortResultsDesc l).Sorted (fun a b => b.similarity_score ≤ a.similarity_score) :=
  List.sorted_insertionSort _ l

theorem sortResultsDesc_eq_of_perm_distinct {l1 l2 : List SearchResult}
    (hp : l1.Perm l2)
    (hd : l1.Pairwise (fun a b => a.similarity_score ≠ b.similarity_score)) :
    sortResultsDesc l1 = sortResultsDesc l2 := by
  have hperm : (sortResultsDesc l1).Perm (sortResultsDesc l2) :=
    ((List.perm_insertionSort _ l1).trans hp).trans
      (List.perm_insertionSort _ l2).symm
  have hd1 : (sortResultsDesc l1).Pairwise
      (fun a b => a.similarity_score ≠ b.similarity_score) :=
    (List.Perm.pairwise_iff (fun h => h.symm)
      (List.perm_insertionSort _ l1)).mpr hd
  have hd2 : (sortResultsDesc l2).Pairwise
      (fun a b => a.similarity_score ≠ b.similarity_score) :=
    (List.Perm.pairwise_iff (fun h => h.symm) hperm).mp hd1
  have hs1 : (sortResultsDesc l1).Pairwise
      (fun a b => b.similarity_score < a.similarity_score) :=
    ((sortResultsDesc_sorted l1).and hd1).imp
      (fun h => lt_of_le_of_ne h.1 (Ne.symm h.2))
  have hs2 : (sortResultsDesc l2).Pairwise
      (fun a b => b.similarity_score < a.similarity_score) :=
    ((sortResultsDesc_sorted l2).and hd2).imp
      (fun h => lt_of_le_of_ne h.1 (Ne.symm h.2))
  exact @List.eq_of_perm_of_sorted SearchResult
    (fun a b => b.similarity_score < a.similarity_score)
    ⟨fun a b h1 h2 => absurd (lt_trans h1 h2) (lt_irrefl _)⟩ _ _ hperm hs1 hs2

theorem searchParallel_no_early (cfg : PerfConfig) (st : MatcherState)
    (q : List Desc) (top_k : Nat) (order : List Nat)
    (hbs : 0 < cfg.batch_size)
    (hne : ∀ pd ∈ st.database_features,
      calculate_similarity q pd.2 < cfg.early_stop_threshold)
    (horder : order.Perm
      (List.range (chunkList cfg.batch_size.toNat st.database_features).length)) :
    searchParallel cfg st q top_k order =
      (sortResultsDesc
        (((order.filterMap
            (fun i => (chunkList cfg.batch_size.toNat st.database_features).get? i)).map
          (qualifying cfg st.database_metadata q)).flatten)).take top_k := by
  unfold searchParallel
  have hcomp := completed_perm_batches
    (chunkList cfg.batch_size.toNat st.database_features) order horder
  have hcb : ∀ b ∈ order.filterMap
      (fun i => (chunkList cfg.batch_size.toNat st.database_features).get? i),
      ∀ pd ∈ b, calculate_similarity q pd.2 < cfg.early_stop_threshold := by
    intro b hb pd hpd
    have hbb := hcomp.subset hb
    have : pd ∈ st.database_features := by
      rw [← chunkList_join cfg.batch_size.toNat (by omega) st.database_features]
      exact List.mem_flatten.mpr ⟨b, hbb, hpd⟩
    exact hne pd this
  rw [parallelMerge_no_early cfg st.database_metadata q top_k _ [] hcb]
  rfl

/-- The flattened qualifying candidates over any completion order are a
permutation of the qualifying candidates of the whole store. -/
theorem completed_qualifying_perm (cfg : PerfConfig) (st : MatcherState)
    (q : List Desc) (order : List Nat) (hbs : 0 < cfg.batch_size)
    (horder : order.Perm
      (List.range (chunkList cfg.batch_size.toNat st.database_features).length)) :
    (((order.filterMap
        (fun i => (chunkList cfg.batch_size.toNat st.database_features).get? i)).map
      (qualifying cfg st.database_metadata q)).flatten).Perm
      (qualifying cfg st.database_metadata q st.database_features) := by
  have hcomp := completed_perm_batches
    (chunkList cfg.batch_size.toNat st.database_features) order horder
  have h1 := List.Perm.flatten (List.Perm.map (qualifying cfg st.database_metadata q) hcomp)
  have h2 : ((chunkList cfg.batch_size.toNat st.database_features).map
      (qualifying cfg st.database_metadata q)).flatten =
      qualifying cfg st.database_metadata q st.database_features := by
    unfold qualifying
    rw [← List.filterMap_flatten,
      chunkList_join cfg.batch_size.toNat (by omega) st.database_features]
  rw [h2] at h1
  exact h1

/-- C5 (amended): with no candidate reaching `earlyStopThreshold`, the
parallel strategy's output is always sorted descending by score, and whenever
no two retained candidates (those reaching `minThreshold`) share a score, any
two completion orders produce identical outputs.  Equal-score candidates,
however, are ordered by batch completion order (the stable sort is applied to
the concatenation in completion order), not by first-seen input order, so
outputs with score ties can differ between runs. -/
theorem claim_C5_parallel_determinism_amended (cfg : PerfConfig)
    (st : MatcherState) (q : List Desc) (top_k : Nat) (order1 order2 : List Nat)
    (hbs : 0 < cfg.batch_size)
    (hne : ∀ pd ∈ st.database_features,
      calculate_similarity q pd.2 < cfg.early_stop_threshold)
    (h1 : order1.Perm
      (List.range (chunkList cfg.batch_size.toNat st.database_features).length))
    (h2 : order2.Perm
      (List.range (chunkList cfg.batch_size.toNat st.database_features).length))
    (hdist : (qualifying cfg st.database_metadata q st.database_features).Pairwise
      (fun a b => a.similarity_score ≠ b.similarity_score)) :
    searchParallel cfg st q top_k order1 = searchParallel cfg st q top_k order2 ∧
    (searchParallel cfg st q top_k order1).Pairwise
      (fun a b => b.similarity_score ≤ a.similarity_score) := by
  have e1 := searchParallel_no_early cfg st q top_k order1 hbs hne h1
  have e2 := searchParallel_no_early cfg st q top_k order2 hbs hne h2
  have p1 := completed_qualifying_perm cfg st q order1 hbs h1
  have p2 := completed_qualifying_perm cfg st q order2 hbs h2
  constructor
  · rw [e1, e2]
    have hd1 : (((order1.filterMap
        (fun i => (chunkList cfg.batch_size.toNat st.database_features).get? i)).map
        (qualifying cfg st.database_metadata q)).flatten).Pairwise
        (fun a b => a.similarity_score ≠ b.similarity_score) :=
      (List.Perm.pairwise_iff (fun h => h.symm) p1).mpr hdist
    rw [sortResultsDesc_eq_of_perm_distinct (p1.trans p2.symm) hd1]
  · rw [e1]
    exact List.Pairwise.sublist (List.take_sublist _ _) (sortResultsDesc_sorted _)

/-- Tunables with `batch_size` 10, a value accepted by the config endpoint. -/
def c5Cfg : PerfConfig := { defaultConfig with batch_size := 10 }

/-- Eleven images: the first and the last both score `0.95`; the nine middle
ones extract no descriptors and score `0`.  With `batch_size = 10` the two
scoring images land in different batches. -/
def c5Store : MatcherState :=
  ⟨[("a.jpg", [[true]]), ("x1.jpg", []), ("x2.jpg", []), ("x3.jpg", []),
    ("x4.jpg", []), ("x5.jpg", []), ("x6.jpg", []), ("x7.jpg", []),
    ("x8.jpg", []), ("x9.jpg", []), ("b.jpg", [[true]])], []⟩

unseal Rat.add Rat.mul Rat.inv Rat.sub in
theorem claim_C5_parallel_determinism_counterexample :
    (∀ pd ∈ c5Store.database_features,
      calculate_similarity [[true]] pd.2 < c5Cfg.early_stop_threshold) ∧
    List.Perm [0, 1]
      (List.range (chunkList c5Cfg.batch_size.toNat c5Store.database_features).length) ∧
    List.Perm [1, 0]
      (List.range (chunkList c5Cfg.batch_size.toNat c5Store.database_features).length) ∧
    searchParallel c5Cfg c5Store [[true]] 5 [0, 1] ≠
      searchParallel c5Cfg c5Store [[true]] 5 [1, 0] := by
  exact ⟨by decide, by decide, by decide, by decide⟩

/-- As `c5Store`, but the two scoring images have distinct scores
(`0.95` and `757/800`), so the amended determinism theorem applies. -/
def c5wStore : MatcherState :=
  ⟨[("a.jpg", [[true]]), ("x1.jpg", []), ("x2.jpg", []), ("x3.jpg", []),
    ("x4.jpg", []), ("x5.jpg", []), ("x6.jpg", []), ("x7.jpg", []),
    ("x8.jpg", []), ("x9.jpg", []), ("b.jpg", [[false]])], []⟩

unseal Rat.add Rat.mul Rat.inv Rat.sub in
theorem claim_C5_parallel_determinism_amended_w :
    searchParallel c5Cfg c5wStore [[true]] 5 [0, 1] =
      searchParallel c5Cfg c5wStore [[true]] 5 [1, 0] ∧
    (searchParallel c5Cfg c5wStore [[true]] 5 [0, 1]).Pairwise
      (fun a b => b.similarity_score ≤ a.similarity_score) :=
  claim_C5_parallel_determinism_amended c5Cfg c5wStore [[true]] 5 [0, 1] [1, 0]
    (by decide) (by decide) (by decide) (by decide) (by decide)

/-! ### C9 — save/load round trip

`save_cache` pickles `database_features` (an exact round trip) and JSON-dumps
`database_metadata` — and `json.dump` writes the `image_shape` tuple as an
array, which `json.load` reads back as a Python list.  The Annoy index and
its mapping document round-trip exactly (the index through the external
library's own save/load, the mapping as a string-keyed JSON object).  When
Annoy is enabled but no index object exists, no Annoy artifacts are written
and `load_cache` rebuilds the index via the external library. -/

/-- The on-disk artifacts written by `save_cache`. -/
structure StoreArtifacts where
  featuresBlob : List (String × List Desc)
  metadataDoc : List (String × Metadata)
  annoyArtifacts : Option (AnnIdx × List (Nat × String))

/-- Normalise one metadata entry as the JSON round trip does. -/
def metaNormPair (p : String × Metadata) : String × Metadata := (p.1, jsonNormMeta p.2)

/-- `save_cache`: pickle the features, JSON-dump the metadata, and save the
Annoy index and mapping when Annoy is enabled and an index exists. -/
def save_cache (use_annoy : Bool) (st : MatcherState) (ann : Option AnnIdx)
    (idMap : List (Nat × String)) : StoreArtifacts :=
  { featuresBlob := st.database_features
    metadataDoc := st.database_metadata.map metaNormPair
    annoyArtifacts := if use_annoy then ann.map (fun i => (i, idMap)) else none }

/-- The slot mapping `build_annoy_index` assigns: consecutive ids across the
store in iteration order, one per descriptor. -/
def buildAnnoyMapping (features : List (String × List Desc)) : List (Nat × String) :=
  (features.flatMap (fun p => List.replicate p.2.length p.1)).enum

/-- `load_cache`: read both documents back; when Annoy is enabled, load the
saved index artifacts, or rebuild the index (external `build`) when they are
missing; when Annoy is disabled, the previous index fields stay in place. -/
def load_cache (annoyBuild : List (String × List Desc) → AnnIdx) (use_annoy : Bool)
    (art : StoreArtifacts) (prevAnn : Option AnnIdx)
    (prevMap : List (Nat × String)) :
    MatcherState × Option AnnIdx × List (Nat × String) :=
  let st : MatcherState := ⟨art.featuresBlob, art.metadataDoc⟩
  if use_annoy then
    match art.annoyArtifacts with
    | some (i, m) => (st, some i, m)
    | none => (st, some (annoyBuild art.featuresBlob), buildAnnoyMapping art.featuresBlob)
  else (st, prevAnn, prevMap)

/-- A search result after the metadata it embeds went through a JSON round
trip. -/
def jsonNormResult (r : SearchResult) : SearchResult :=
  { r with metadata := r.metadata.map jsonNormMeta }

@[simp] theorem jsonNormResult_score (r : SearchResult) :
    (jsonNormResult r).similarity_score = r.similarity_score := rfl

@[simp] theorem jsonNormResult_flag (r : SearchResult) :
    (jsonNormResult r).early_stopped = r.early_stopped := rfl

@[simp] theorem jsonNormResult_path (r : SearchResult) :
    (jsonNormResult r).image_path = r.image_path := rfl

theorem lookup_map_norm (meta : List (String × Metadata)) (k : String) :
    List.lookup k (meta.map metaNormPair) = (List.lookup k meta).map jsonNormMeta := by
  induction meta with
  | nil => rfl
  | cons p rest ih =>
    obtain ⟨k2, m⟩ := p
    simp only [List.map_cons, metaNormPair, List.lookup]
    cases hbe : k == k2 with
    | true => rfl
    | false => exact ih

theorem mkResult_norm (meta : List (String × Metadata)) (p : String) (s : ℚ)
    (flag : Option Bool) :
    mkResult (meta.map metaNormPair) p s flag = jsonNormResult (mkResult meta p s flag) := by
  unfold mkResult jsonNormResult
  simp [lookup_map_norm]

theorem orderedInsert_norm (a : SearchResult) (l : List SearchResult) :
    List.orderedInsert (fun x y => y.similarity_score ≤ x.similarity_score)
        (jsonNormResult a) (l.map jsonNormResult) =
      (List.orderedInsert (fun x y => y.similarity_score ≤ x.similarity_score)
        a l).map jsonNormResult := by
  induction l with
  | nil => rfl
  | cons b bs ih =>
    simp only [List.map_cons, List.orderedInsert, jsonNormResult_score]
    by_cases h : b.similarity_score ≤ a.similarity_score
    · rw [if_pos h, if_pos h, List.map_cons, List.map_cons]
    · rw [if_neg h, if_neg h, List.map_cons, ih]

theorem sortResultsDesc_norm (l : List SearchResult) :
    sortResultsDesc (l.map jsonNormResult) = (sortResultsDesc l).map jsonNormResult := by
  unfold sortResultsDesc
  induction l with
  | nil => rfl
  | cons a bs ih =>
    simp only [List.map_cons, List.insertionSort]
    rw [ih, orderedInsert_norm]

theorem searchSequentialGo_norm (cfg : PerfConfig) (meta : List (String × Metadata))
    (q : List Desc) (top_k : Nat) :
    ∀ (l : List (String × List Desc)) (acc : List SearchResult),
      searchSequentialGo cfg (meta.map metaNormPair) q top_k l (acc.map jsonNormResult) =
        (searchSequentialGo cfg meta q top_k l acc).map jsonNormResult := by
  intro l
  induction l with
  | nil =>
    intro acc
    simp only [searchSequentialGo]
    rw [sortResultsDesc_norm, List.map_take]
  | cons pd rest ih =>
    obtain ⟨p, ds⟩ := pd
    intro acc
    simp only [searchSequentialGo]
    by_cases he : cfg.early_stop_threshold ≤ calculate_similarity q ds
    · rw [if_pos he, if_pos he, mkResult_norm]
      rfl
    · rw [if_neg he, if_neg he]
      by_cases hm : cfg.min_threshold ≤ calculate_similarity q ds
      · rw [if_pos hm, if_pos hm, ← ih]
        rw [List.map_append, mkResult_norm]
        rfl
      · rw [if_neg hm, if_neg hm, ih]

theorem similarityBatchGo_norm (cfg : PerfConfig) (meta : List (String × Metadata))
    (q : List Desc) :
    ∀ (b : List (String × List Desc)) (acc : List SearchResult),
      similarityBatchGo cfg (meta.map metaNormPair) q b (acc.map jsonNormResult) =
        (similarityBatchGo cfg meta q b acc).map jsonNormResult := by
  intro b
  induction b with
  | nil => intro acc; rfl
  | cons pd rest ih =>
    obtain ⟨p, ds⟩ := pd
    intro acc
    simp only [similarityBatchGo]
    by_cases he : cfg.early_stop_threshold ≤ calculate_similarity q ds
    · rw [if_pos he, if_pos he, mkResult_norm]
      rfl
    · rw [if_neg he, if_neg he]
      by_cases hm : cfg.min_threshold ≤ calculate_similarity q ds
      · rw [if_pos hm, if_pos hm, ← ih]
        rw [List.map_append, mkResult_norm]
        rfl
      · rw [if_neg hm, if_neg hm, ih]

theorem parallelMerge_norm (cfg : PerfConfig) (meta : List (String × Metadata))
    (q : List Desc) (top_k : Nat) :
    ∀ (completed : List (List (String × List Desc))) (acc : List SearchResult),
      parallelMerge cfg (meta.map metaNormPair) q top_k completed
          (acc.map jsonNormResult) =
        (parallelMerge cfg meta q top_k completed acc).map jsonNormResult := by
  intro completed
  induction completed with
  | nil =>
    intro acc
    simp only [parallelMerge]
    rw [sortResultsDesc_norm, List.map_take]
  | cons b rest ih =>
    intro acc
    simp only [parallelMerge]
    have hbatch : similarityBatch cfg (meta.map metaNormPair) q b =
        (similarityBatch cfg meta q b).map jsonNormResult := by
      unfold similarityBatch
      have := similarityBatchGo_norm cfg meta q b []
      simpa using this
    rw [hbatch, List.find?_map]
    have hpred : ((fun r => r.early_stopped == some true) ∘ jsonNormResult) =
        (fun r : SearchResult => r.early_stopped == some true) := by
      funext r
      simp [Function.comp]
    rw [hpred]
    cases hf : (similarityBatch cfg meta q b).find?
        (fun r => r.early_stopped == some true) with
    | some r => rfl
    | none =>
      rw [← List.map_append, ih]
      rfl

theorem annPhase2_norm (cfg : PerfConfig) (st : MatcherState) (q : List Desc)
    (top_k : Nat) (p1 : List (String × AnnScores)) :
    ∀ (cands : List String) (acc : List SearchResult),
      annPhase2 cfg ⟨st.database_features, st.database_metadata.map metaNormPair⟩
          q top_k p1 cands (acc.map jsonNormResult) =
        (annPhase2 cfg st q top_k p1 cands acc).map jsonNormResult := by
  intro cands
  induction cands with
  | nil =>
    intro acc
    simp only [annPhase2]
    rw [sortResultsDesc_norm, List.map_take]
  | cons path rest ih =>
    intro acc
    simp only [annPhase2]
    cases hdb : List.lookup path st.database_features with
    | none => dsimp only; exact ih acc
    | some db =>
      cases hv : List.lookup path p1 with
      | none => dsimp only; exact ih acc
      | some v =>
        dsimp only
        by_cases hm : cfg.min_threshold ≤ hybridScore (calculate_similarity q db) (annAvg v)
        · rw [if_pos hm, if_pos hm]
          by_cases he : cfg.early_stop_threshold ≤
              hybridScore (calculate_similarity q db) (annAvg v)
          · rw [if_pos he, if_pos he, mkResult_norm]
            rfl
          · rw [if_neg he, if_neg he, ← ih, List.map_append, mkResult_norm]
            rfl
        · rw [if_neg hm, if_neg hm, ih]

theorem search_similar_images_norm (cfg : PerfConfig) (ann : Option AnnIdx)
    (idMap : List (Nat × String)) (st : MatcherState) (q : List Desc)
    (top_k : Nat) (order : List Nat) :
    search_similar_images cfg ann idMap
        ⟨st.database_features, st.database_metadata.map metaNormPair⟩ q top_k order =
      (search_similar_images cfg ann idMap st q top_k order).map jsonNormResult := by
  unfold search_similar_images
  by_cases hq : q.isEmpty
  · rw [if_pos hq, if_pos hq]
    rfl
  · rw [if_neg hq, if_neg hq]
    by_cases ha : cfg.use_annoy && ann.isSome
    · rw [if_pos ha, if_pos ha]
      cases ann with
      | none =>
        unfold searchWithAnnoy searchSequential
        have := searchSequentialGo_norm cfg st.database_metadata q top_k
          st.database_features []
        simpa using this
      | some idx =>
        unfold searchWithAnnoy
        have := annPhase2_norm cfg st q top_k
          (annPhase1 idx idMap q (searchKExpandedOf cfg).toNat)
          (annTopCandidates (annPhase1 idx idMap q (searchKExpandedOf cfg).toNat)) []
        simpa using this
    · rw [if_neg ha, if_neg ha]
      by_cases hp : cfg.use_parallel_search
      · rw [if_pos hp, if_pos hp]
        unfold searchParallel
        have := parallelMerge_norm cfg st.database_metadata q top_k
          (order.filterMap
            (fun i => (chunkList cfg.batch_size.toNat st.database_features).get? i)) []
        simpa using this
      · rw [if_neg hp, if_neg hp]
        unfold searchSequential
        have := searchSequentialGo_norm cfg st.database_metadata q top_k
          st.database_features []
        simpa using this

/-- C9 (amended): provided the ANN index object is loaded whenever Annoy is
enabled (otherwise `load_cache` triggers an external index rebuild),
`save_cache` followed by `load_cache` reproduces the features, the index and
the slot mapping exactly, and reproduces the metadata up to JSON
normalisation: the `image_shape` tuple is read back as a list.  Consequently
every fixed query is answered with identical image keys, scores and
early-stop flags, and with metadata identical up to that same normalisation —
not byte-identical metadata. -/
theorem claim_C9_roundtrip_amended (annoyBuild : List (String × List Desc) → AnnIdx)
    (ua : Bool) (st : MatcherState) (ann : Option AnnIdx)
    (idMap : List (Nat × String)) (cfg : PerfConfig) (q : List Desc)
    (top_k : Nat) (order : List Nat)
    (hua : ua = false ∨ ann.isSome = true) :
    load_cache annoyBuild ua (save_cache ua st ann idMap) ann idMap =
      (⟨st.database_features, st.database_metadata.map metaNormPair⟩, ann, idMap) ∧
    search_similar_images cfg
        (load_cache annoyBuild ua (save_cache ua st ann idMap) ann idMap).2.1
        (load_cache annoyBuild ua (save_cache ua st ann idMap) ann idMap).2.2
        (load_cache annoyBuild ua (save_cache ua st ann idMap) ann idMap).1
        q top_k order =
      (search_similar_images cfg ann idMap st q top_k order).map jsonNormResult := by
  have hstate : load_cache annoyBuild ua (save_cache ua st ann idMap) ann idMap =
      (⟨st.database_features, st.database_metadata.map metaNormPair⟩, ann, idMap) := by
    cases ua with
    | false => rfl
    | true =>
      cases ann with
      | none => simp at hua
      | some i => rfl
  refine ⟨hstate, ?_⟩
  rw [hstate]
  exact search_similar_images_norm cfg ann idMap st q top_k order

/-- A store whose single image carries its `image_shape` as a tuple, as built
by `process_database_images`. -/
def c9Store : MatcherState :=
  ⟨[("a.jpg", [[true]])],
   [("a.jpg", ⟨"a.jpg", "image_data/a.jpg", 1, .tup [1, 1, 3]⟩)]⟩

unseal Rat.add Rat.mul Rat.inv Rat.sub in
theorem claim_C9_roundtrip_counterexample :
    search_similar_images defaultConfig none []
        (load_cache (fun _ => ⟨fun _ _ => []⟩) false
          (save_cache false c9Store none []) none []).1 [[true]] 5 [0] ≠
      search_similar_images defaultConfig none [] c9Store [[true]] 5 [0] := by
  decide

unseal Rat.add Rat.mul Rat.inv Rat.sub in
theorem claim_C9_roundtrip_amended_w :
    load_cache (fun _ => ⟨fun _ _ => []⟩) false
        (save_cache false c9Store none []) none [] =
      (⟨c9Store.database_features, c9Store.database_metadata.map metaNormPair⟩,
        none, []) ∧
    search_similar_images defaultConfig
        (load_cache (fun _ => ⟨fun _ _ => []⟩) false
          (save_cache false c9Store none []) none []).2.1
        (load_cache (fun _ => ⟨fun _ _ => []⟩) false
          (save_cache false c9Store none []) none []).2.2
        (load_cache (fun _ => ⟨fun _ _ => []⟩) false
          (save_cache false c9Store none []) none []).1
        [[true]] 5 [0] =
      (search_similar_images defaultConfig none [] c9Store [[true]] 5 [0]).map
        jsonNormResult :=
  claim_C9_roundtrip_amended (fun _ => ⟨fun _ _ => []⟩) false c9Store none []
    defaultConfig [[true]] 5 [0] (Or.inl rfl)

end ImageMatching
